import Mathlib

/-!
Shallow embedding of the gir2 enrichment pipeline
(backend/services/enrichment_service.py, backend/services/gemini_client.py)
with proofs of the behavioural claims about hashing, checkpoint resume,
batching, vocabulary coercion, retry policy and run lifecycle.

Wall-clock timestamp columns (ai_run_timestamp, started_at, finished_at) and
the denormalized GrievanceProcessed write-through projection are not modelled:
they do not influence the counters, the checkpoint contents that the claims
talk about, or control flow.
-/

namespace Gir2

/-! ### Python string primitives used by the service -/

/-- Whitespace test matching the characters Python `str.strip` and the
regex class `\s` treat as whitespace for the ASCII range. -/
def pyIsSpace (c : Char) : Bool :=
  c = ' ' || c = '\t' || c = '\n' || c = '\r' || c = '\x0b' || c = '\x0c'

/-- Python `str.strip()`. -/
def pyStrip (s : String) : String :=
  String.mk (((s.toList.dropWhile pyIsSpace).reverse.dropWhile pyIsSpace).reverse)

/-- Python `str.lower()` (ASCII). -/
def pyLower (s : String) : String :=
  String.mk (s.toList.map Char.toLower)

/-- Python `str.capitalize()`: first character uppercased, the rest lowercased. -/
def pyCapitalize (s : String) : String :=
  match s.toList with
  | [] => ""
  | c :: cs => String.mk (c.toUpper :: cs.map Char.toLower)

/-- One step of whitespace-run collapsing. -/
def collapseWsStep (c : Char) (acc : List Char) : List Char :=
  if pyIsSpace c then
    match acc with
    | ' ' :: _ => acc
    | _ => ' ' :: acc
  else c :: acc

/-- Python `re.sub(r"\s+", " ", s)`: every maximal run of whitespace becomes
a single space. -/
def collapseWs (s : String) : String :=
  String.mk (s.toList.foldr collapseWsStep [])

/-- Python `(v or "").strip()` then `re.sub(r"\s+", " ", ...)` as used in the
sanitizers (strip first, then collapse). -/
def stripCollapse (s : String) : String :=
  collapseWs (pyStrip s)

/-- Python `[p for p in v.split(" ") if p]`. -/
def splitWords (s : String) : List String :=
  (s.splitOn " ").filter (fun w => w ≠ "")

/-- Python `w[:1].upper() + w[1:]` (only the first character is uppercased,
the rest is untouched). -/
def titleWord (w : String) : String :=
  match w.toList with
  | [] => ""
  | c :: cs => String.mk (c.toUpper :: cs)

/-- Python `s[:n]` on code points. -/
def pyTake (s : String) (n : Nat) : String :=
  String.mk (s.toList.take n)

/-- Python `str.rstrip()`. -/
def pyRstrip (s : String) : String :=
  String.mk ((s.toList.reverse.dropWhile pyIsSpace).reverse)

/-! ### Vocabulary sanitizers (enrichment_service.py) -/

/-- The closed category vocabulary ALLOWED_CATEGORIES. -/
def ALLOWED_CATEGORIES : List String :=
  [ "Solid Waste Management"
  , "Roads & Footpaths"
  , "Water Supply"
  , "Sewerage & Drainage"
  , "Street Lighting"
  , "Public Health & Sanitation"
  , "Encroachment & Illegal Construction"
  , "Property Tax & Revenue"
  , "Parks & Public Spaces"
  , "Traffic & Transport"
  , "Noise / Nuisance"
  , "Animal Control"
  , "Other Civic Issues" ]

/-- EnrichmentService._category_sanitize. -/
def _category_sanitize (v : String) : String :=
  let v := pyStrip v
  if v ∈ ALLOWED_CATEGORIES then v else "Other Civic Issues"

/-- EnrichmentService._subtopic_sanitize. -/
def _subtopic_sanitize (v : String) : String :=
  let v := stripCollapse v
  if v = "" then "General Civic Issue"
  else
    let parts := splitWords v
    let parts := parts.take 4
    String.intercalate " " (parts.map titleWord)

/-- EnrichmentService._confidence_sanitize. -/
def _confidence_sanitize (v : String) : String :=
  let v := pyCapitalize (pyStrip v)
  if v = "High" || v = "Medium" || v = "Low" then v else "Low"

/-- EnrichmentService._sanitize_level. -/
def _sanitize_level (v : String) : String :=
  let v := pyCapitalize (pyStrip v)
  if v = "High" || v = "Medium" || v = "Low" || v = "Unknown" then v else "Unknown"

/-- EnrichmentService._sanitize_short_phrase. -/
def _sanitize_short_phrase (v : String) (max_words : Nat := 6) : String :=
  let v := stripCollapse v
  if v = "" then ""
  else
    let parts := (splitWords v).take max_words
    String.intercalate " " parts

/-- EnrichmentService._sanitize_summary. -/
def _sanitize_summary (v : String) (max_chars : Nat := 240) : String :=
  let v := stripCollapse v
  if v = "" then ""
  else if v.length > max_chars then pyRstrip (pyTake v (max_chars - 1)) ++ "…"
  else v

/-- EnrichmentService._sanitize_urgency. -/
def _sanitize_urgency (v : String) : String :=
  let s := pyCapitalize (pyStrip v)
  if s = "Low" || s = "Med" || s = "High" then s
  else if s = "Medium" then "Med"
  else "Med"

/-- EnrichmentService._sanitize_sentiment. -/
def _sanitize_sentiment (v : String) : String :=
  let s := pyCapitalize (pyStrip v)
  if s = "Neg" || s = "Neu" || s = "Pos" then s
  else if s = "Negative" then "Neg"
  else if s = "Neutral" then "Neu"
  else if s = "Positive" then "Pos"
  else "Neu"

/-- EnrichmentService._clean_text (collapse whitespace, strip, cap length). -/
def _clean_text (s : String) (max_chars : Nat := 2500) : String :=
  let s := pyStrip (collapseWs s)
  if s.length > max_chars then pyTake s max_chars else s

/-- EnrichmentService._build_ai_input_text: subject and description stripped,
joined by a newline, stripped, cleaned to 2500 chars. -/
def _build_ai_input_text (subject description : String) : String :=
  let subj := pyStrip subject
  let desc := pyStrip description
  let combined := pyStrip (subj ++ "\n" ++ desc)
  _clean_text combined 2500

/-! ### SHA-256 (the `hashlib.sha256(...).hexdigest()` used by `_sha256`),
implemented from FIPS 180-4 over Nat with explicit reduction mod 2^32. -/

/-- Truncate to 32 bits. -/
def w32 (x : Nat) : Nat := x % 4294967296

/-- 32-bit right rotation (input assumed below 2^32). -/
def rotr (n x : Nat) : Nat := w32 ((x >>> n) ||| (x <<< (32 - n)))

def bsig0 (x : Nat) : Nat := (rotr 2 x) ^^^ (rotr 13 x) ^^^ (rotr 22 x)
def bsig1 (x : Nat) : Nat := (rotr 6 x) ^^^ (rotr 11 x) ^^^ (rotr 25 x)
def ssig0 (x : Nat) : Nat := (rotr 7 x) ^^^ (rotr 18 x) ^^^ (x >>> 3)
def ssig1 (x : Nat) : Nat := (rotr 17 x) ^^^ (rotr 19 x) ^^^ (x >>> 10)

/-- The 64 SHA-256 round constants (FIPS 180-4, in decimal). -/
def K64 : List Nat :=
  [1116352408, 1899447441, 3049323471, 3921009573, 961987163, 1508970993,
   2453635748, 2870763221, 3624381080, 310598401, 607225278, 1426881987,
   1925078388, 2162078206, 2614888103, 3248222580, 3835390401, 4022224774,
   264347078, 604807628, 770255983, 1249150122, 1555081692, 1996064986,
   2554220882, 2821834349, 2952996808, 3210313671, 3336571891, 3584528711,
   113926993, 338241895, 666307205, 773529912, 1294757372, 1396182291,
   1695183700, 1986661051, 2177026350, 2456956037, 2730485921, 2820302411,
   3259730800, 3345764771, 3516065817, 3600352804, 4094571909, 275423344,
   430227734, 506948616, 659060556, 883997877, 958139571, 1322822218,
   1537002063, 1747873779, 1955562222, 2024104815, 2227730452, 2361852424,
   2428436474, 2756734187, 3204031479, 3329325298]

/-- SHA-256 working state: eight 32-bit words. -/
structure H8 where
  h0 : Nat
  h1 : Nat
  h2 : Nat
  h3 : Nat
  h4 : Nat
  h5 : Nat
  h6 : Nat
  h7 : Nat

def initH : H8 :=
  ⟨1779033703, 3144134277, 1013904242, 2773480762, 1359893119, 2600822924, 528734635, 1541459225⟩

/-- Split a list into chunks of size n (fuel-driven structural recursion). -/
def chunksOfAux (n : Nat) : Nat → List α → List (List α)
  | 0, _ => []
  | _, [] => []
  | fuel+1, l => l.take n :: chunksOfAux n fuel (l.drop n)

def chunksOf (n : Nat) (l : List α) : List (List α) := chunksOfAux n (l.length + 1) l

/-- Big-endian 32-bit word from up to four bytes. -/
def word4 (g : List Nat) : Nat :=
  ((g.getD 0 0) <<< 24) ||| ((g.getD 1 0) <<< 16) ||| ((g.getD 2 0) <<< 8) ||| (g.getD 3 0)

def wordsOfChunk (bytes : List Nat) : List Nat := (chunksOf 4 bytes).map word4

/-- One message-schedule extension step (appends w[i] for i = current length). -/
def extendStep (w : List Nat) : List Nat :=
  w ++ [w32 (ssig1 (w.getD (w.length - 2) 0) + w.getD (w.length - 7) 0 +
             ssig0 (w.getD (w.length - 15) 0) + w.getD (w.length - 16) 0)]

/-- Full 64-entry message schedule from the 16 chunk words. -/
def schedule (w16 : List Nat) : List Nat := Nat.repeat extendStep 48 w16

/-- One SHA-256 compression round. -/
def shaRound (st : H8) (kw : Nat × Nat) : H8 :=
  let ch := (st.h4 &&& st.h5) ^^^ ((st.h4 ^^^ 0xffffffff) &&& st.h6)
  let maj := (st.h0 &&& st.h1) ^^^ (st.h0 &&& st.h2) ^^^ (st.h1 &&& st.h2)
  let t1 := w32 (st.h7 + bsig1 st.h4 + ch + kw.2 + kw.1)
  let t2 := w32 (bsig0 st.h0 + maj)
  ⟨w32 (t1 + t2), st.h0, st.h1, st.h2, w32 (st.h3 + t1), st.h4, st.h5, st.h6⟩

/-- Compress one 64-byte chunk into the state. -/
def processChunk (st : H8) (chunkBytes : List Nat) : H8 :=
  let ws := schedule (wordsOfChunk chunkBytes)
  let f := (ws.zip K64).foldl shaRound st
  ⟨w32 (st.h0 + f.h0), w32 (st.h1 + f.h1), w32 (st.h2 + f.h2), w32 (st.h3 + f.h3),
   w32 (st.h4 + f.h4), w32 (st.h5 + f.h5), w32 (st.h6 + f.h6), w32 (st.h7 + f.h7)⟩

/-- 64-bit big-endian length encoding. -/
def lenBytes8 (n : Nat) : List Nat :=
  [(n >>> 56) % 256, (n >>> 48) % 256, (n >>> 40) % 256, (n >>> 32) % 256,
   (n >>> 24) % 256, (n >>> 16) % 256, (n >>> 8) % 256, n % 256]

/-- FIPS 180-4 padding: 0x80, zeros to 56 mod 64, 8-byte bit length. -/
def padMessage (bs : List Nat) : List Nat :=
  let L := bs.length
  let r := (L + 1) % 64
  let zeros := if r ≤ 56 then 56 - r else 120 - r
  bs ++ [0x80] ++ List.replicate zeros 0 ++ lenBytes8 (L * 8)

/-- Big-endian bytes of one 32-bit word. -/
def wordBytes (w : Nat) : List Nat :=
  [(w >>> 24) % 256, (w >>> 16) % 256, (w >>> 8) % 256, w % 256]

/-- 32-byte digest of a final state. -/
def digestBytes (st : H8) : List Nat :=
  wordBytes st.h0 ++ wordBytes st.h1 ++ wordBytes st.h2 ++ wordBytes st.h3 ++
  wordBytes st.h4 ++ wordBytes st.h5 ++ wordBytes st.h6 ++ wordBytes st.h7

def sha256bytes (bs : List Nat) : List Nat :=
  digestBytes ((chunksOf 64 (padMessage bs)).foldl processChunk initH)

/-- Lowercase hex digit via code-point arithmetic (out-of-range maps to the
default digit 0). -/
def hexDigit (n : Nat) : Char :=
  if n < 10 then Char.ofNat (48 + n)
  else if n < 16 then Char.ofNat (87 + n)
  else '0'

def byteHex (b : Nat) : List Char := [hexDigit (b / 16), hexDigit (b % 16)]

def bytesToHexStr (bs : List Nat) : String := String.mk ((bs.map byteHex).flatten)

/-- UTF-8 encoding of one code point. -/
def utf8Char (c : Char) : List Nat :=
  let n := c.toNat
  if n < 0x80 then [n]
  else if n < 0x800 then [0xC0 ||| (n >>> 6), 0x80 ||| (n &&& 0x3F)]
  else if n < 0x10000 then
    [0xE0 ||| (n >>> 12), 0x80 ||| ((n >>> 6) &&& 0x3F), 0x80 ||| (n &&& 0x3F)]
  else
    [0xF0 ||| (n >>> 18), 0x80 ||| ((n >>> 12) &&& 0x3F), 0x80 ||| ((n >>> 6) &&& 0x3F),
     0x80 ||| (n &&& 0x3F)]

def utf8Encode (s : String) : List Nat := (s.toList.map utf8Char).flatten

/-- enrichment_service.py `_sha256`: hex digest of the UTF-8 SHA-256. -/
def _sha256 (s : String) : String := bytesToHexStr (sha256bytes (utf8Encode s))

/-! ### Canonical payload serialization:
`json.dumps(payload, ensure_ascii=False, sort_keys=True)` for flat payloads
whose values are strings, integers or null (the shapes the service hashes). -/

/-- JSON value shapes occurring in hashed payloads. -/
inductive JVal where
  | js (s : String)
  | ji (n : Int)
  | jnull
deriving DecidableEq, Repr

/-- JSON string escaping as json.dumps performs it with ensure_ascii=False. -/
def jsonEscapeChar (c : Char) : List Char :=
  if c = '"' then ['\\', '"']
  else if c = '\\' then ['\\', '\\']
  else if c = '\n' then ['\\', 'n']
  else if c = '\r' then ['\\', 'r']
  else if c = '\t' then ['\\', 't']
  else if c.toNat < 32 then
    ['\\', 'u', '0', '0', hexDigit (c.toNat / 16), hexDigit (c.toNat % 16)]
  else [c]

def renderJString (s : String) : String :=
  String.mk ('"' :: (s.toList.map jsonEscapeChar).flatten ++ ['"'])

def renderJVal : JVal → String
  | .js s => renderJString s
  | .ji n => toString n
  | .jnull => "null"

/-- Lexicographic code-point comparison of strings (Python string ordering). -/
def strLeChars : List Char → List Char → Bool
  | [], _ => true
  | _ :: _, [] => false
  | a :: as, b :: bs =>
    if a.toNat < b.toNat then true
    else if b.toNat < a.toNat then false
    else strLeChars as bs

def strLe (a b : String) : Bool := strLeChars a.toList b.toList

/-- A hashed payload: one JSON object given as key/value pairs
(dict semantics, so keys are assumed distinct where it matters). -/
abbrev Payload := List (String × JVal)

/-- Insertion into a key-sorted pair list. -/
def insertPair (p : String × JVal) : Payload → Payload
  | [] => [p]
  | q :: qs => if strLe p.1 q.1 then p :: q :: qs else q :: insertPair p qs

/-- Sort the payload items by key (the `sort_keys=True` of json.dumps). -/
def sortPairs : Payload → Payload
  | [] => []
  | p :: ps => insertPair p (sortPairs ps)

/-- Serialize already-sorted items with the default json.dumps separators. -/
def renderPairs (ps : Payload) : String :=
  "\x7b" ++ String.intercalate ", "
    (ps.map fun p => renderJString p.1 ++ ": " ++ renderJVal p.2) ++ "\x7d"

/-- `json.dumps(payload, ensure_ascii=False, sort_keys=True)`. -/
def json_dumps_sorted (ps : Payload) : String := renderPairs (sortPairs ps)

/-- The canonical input hash of a payload, as computed at
enrichment_service.py:764 and :1154. -/
def payloadHash (ps : Payload) : String := _sha256 (json_dumps_sorted ps)

/-! ### Actionable score -/

/-- Inputs of services.actionable_score.ActionableInputs as consumed by the
orchestrator (enrichment_service.py:774-783 and :862-871). -/
structure ActionableInputs where
  ai_urgency : Option String
  resolution_days : Option Int
  rating : Option Int
  forward_count : Option Int
  ai_reopen_risk : Option String
  ai_confidence : Option String

/-- Modelled from the spec: the file services/actionable_score.py that defines
`compute_actionable_score` is absent from the sources (only its caller is
present); per the spec (section 4.5) it is a pure deterministic function
`score(urgency, resolutionDays, rating, forwardCount, reopenRisk, confidence)`
returning an integer in [0, 100] with no external dependency, defined for any
combination of inputs including all-missing operational fields. The weighting
below is one such function; the final clamp realizes the ranged contract. -/
def compute_actionable_score (i : ActionableInputs) : Int :=
  let urgencyPts : Int :=
    match i.ai_urgency with
    | some "High" => 40 | some "Med" => 25 | some "Low" => 10 | _ => 25
  let reopenPts : Int :=
    match i.ai_reopen_risk with
    | some "High" => 20 | some "Medium" => 10 | _ => 0
  let confPts : Int :=
    match i.ai_confidence with
    | some "High" => 10 | some "Medium" => 5 | _ => 0
  let delayPts : Int :=
    match i.resolution_days with
    | some d => if d > 30 then 15 else if d > 7 then 8 else 0
    | none => 0
  let ratingPts : Int :=
    match i.rating with
    | some r => if r ≤ 2 then 10 else 0
    | none => 0
  let fwdPts : Int :=
    match i.forward_count with
    | some f => if f ≥ 3 then 5 else 0
    | none => 0
  min 100 (max 0 (urgencyPts + reopenPts + confPts + delayPts + ratingPts + fwdPts))

/-! ### Gemini client (gemini_client.py) control-flow model.

The transport boundary (`requests.post` plus response-text JSON parsing) is an
oracle indexed by model name and attempt number; everything downstream of that
boundary is translated from the source. -/

/-- settings.gemini_model_primary default. -/
def gemini_model_primary : String := "gemini-3-pro"

/-- settings.gemini_model_fallback default. -/
def gemini_model_fallback : String := "gemini-3-flash"

/-- generate_json: attempts_per_model = max(1, settings.gemini_attempts_per_model)
with the configured default 2. -/
def gemini_attempts_per_model : Nat := max 1 2

/-- Shape of the JSON payload parsed from a response body; the content itself
is consumed by the enrichment layer, only the shape matters to the client. -/
inductive GShape where
  | jarr
  | jobj
  | jother
deriving DecidableEq, Repr

/-- One transport-level outcome: an HTTP response (with status, whether the
body carries the leaked-key marker, and the parsed JSON payload if the body
text parses), or a raised requests error. -/
inductive TransportOut where
  | http (code : Nat) (leakedBody : Bool) (parsed : Option GShape)
  | timeoutE
  | connE
  | otherE

/-- The exception kinds flowing through generate_json. -/
inductive GExc where
  | geminiError (msg : String) (httpStatus : Option Nat)
  | timeoutExc
  | connExc
  | otherExc

/-- Python type(e).__name__ for the modelled exceptions. -/
def excName : GExc → String
  | .geminiError _ _ => "GeminiError"
  | .timeoutExc => "Timeout"
  | .connExc => "ConnectionError"
  | .otherExc => "Exception"

def excMsg : GExc → String
  | .geminiError m _ => m
  | .timeoutExc => "timed out"
  | .connExc => "connection error"
  | .otherExc => "error"

/-- The f-string used for last_error_msg in generate_json. -/
def excText (e : GExc) : String := excName e ++ ": " ++ excMsg e

/-- GeminiClient._call_text status handling (gemini_client.py:200-226)
composed with GeminiClient._parse_json: 429/5xx raise the retryable
GeminiError; every other status of at least 400 raises the non-retryable
GeminiError (with the special message for a leaked 403); an unparsable body
raises the invalid-JSON GeminiError. -/
def _call_text (t : TransportOut) : Except GExc GShape :=
  match t with
  | .timeoutE => .error .timeoutExc
  | .connE => .error .connExc
  | .otherE => .error .otherExc
  | .http code leaked parsed =>
    if code = 429 || code = 500 || code = 502 || code = 503 || code = 504 then
      .error (.geminiError "Retryable Gemini error" (some code))
    else if code ≥ 400 then
      if code = 403 && leaked then
        .error (.geminiError "API key reported as leaked. Please use another API key." (some code))
      else
        .error (.geminiError "Non-retryable Gemini error" (some code))
    else
      match parsed with
      | none => .error (.geminiError "Invalid JSON returned" none)
      | some sh => .ok sh

/-- The `expect` argument of generate_json. -/
inductive Expect where
  | edict
  | elist
  | eany

/-- Final result of generate_json, with an audit log of the transport calls
that were made, as (model, attempt-index) pairs. -/
structure GenResult where
  ok : Bool
  model_used : String
  error : Option String
  calls : List (String × Nat)

/-- The per-model attempt loop of generate_json (gemini_client.py:88-127):
every caught exception — GeminiError of any reason, timeout, connection
error, or anything else — leads to another attempt until the per-model
budget is spent. The expect-shape validation happens inside the same try
block, so a shape mismatch is retried like any other GeminiError. -/
def tryModel (oracle : String → Nat → TransportOut) (expect : Expect) (model : String) :
    Nat → Nat → List (String × Nat) → Option GExc →
    Option GShape × Option GExc × List (String × Nat)
  | 0, _, log, lastErr => (none, lastErr, log)
  | left+1, idx, log, lastErr =>
    let log := log ++ [(model, idx)]
    match _call_text (oracle model idx) with
    | .ok sh =>
      match expect, sh with
      | .elist, .jarr => (some sh, lastErr, log)
      | .edict, .jobj => (some sh, lastErr, log)
      | .eany, _ => (some sh, lastErr, log)
      | .elist, _ => tryModel oracle expect model left (idx+1) log
          (some (.geminiError "Expected JSON array" none))
      | .edict, _ => tryModel oracle expect model left (idx+1) log
          (some (.geminiError "Expected JSON object" none))
    | .error e => tryModel oracle expect model left (idx+1) log (some e)

/-- GeminiClient.generate_json (gemini_client.py:57-142): primary model then
fallback, attempts_per_model tries each; on overall failure the result carries
the last error text and the fallback model name. -/
def generate_json (apiKeyConfigured : Bool) (oracle : String → Nat → TransportOut)
    (expect : Expect) : GenResult :=
  if ¬ apiKeyConfigured then
    { ok := false, model_used := gemini_model_primary,
      error := some "GEMINI_API_KEY not configured", calls := [] }
  else
    match tryModel oracle expect gemini_model_primary gemini_attempts_per_model 0 [] none with
    | (some _, _, log) =>
      { ok := true, model_used := gemini_model_primary, error := none, calls := log }
    | (none, lastErr1, log) =>
      match tryModel oracle expect gemini_model_fallback gemini_attempts_per_model 0 log none with
      | (some _, _, log2) =>
        { ok := true, model_used := gemini_model_fallback, error := none, calls := log2 }
      | (none, lastErr2, log2) =>
        let msg :=
          match lastErr2, lastErr1 with
          | some e, _ => excText e
          | none, some e => excText e
          | none, none => "Gemini failed"
        { ok := false, model_used := gemini_model_fallback, error := some msg, calls := log2 }

/-! ### Checkpoint stores as association lists (unique-key tables). -/

/-- Lookup by key (the dict .get / unique-column select). -/
def alGet : List (String × α) → String → Option α
  | [], _ => none
  | p :: ps, k => if p.1 = k then some p.2 else alGet ps k

/-- Upsert: update the first (by key-uniqueness: only) matching row in place,
else append a new row. -/
def alSet : List (String × α) → String → α → List (String × α)
  | [], k, v => [(k, v)]
  | p :: ps, k, v => if p.1 = k then (k, v) :: ps else p :: alSet ps k v

/-- Python `a or b` for an optional string a (None and "" are falsy). -/
def pyOrS (a : Option String) (b : String) : String :=
  match a with
  | some s => if s = "" then b else s
  | none => b

def optJS : Option String → JVal
  | some s => .js s
  | none => .jnull

def optJI : Option Int → JVal
  | some n => .ji n
  | none => .jnull

/-! ### Ticket enrichment path (_run_ticket_enrich and _ticket_enrich_batch).

The rows of grievances_processed for the source dataset, already ordered as
the paged query orders them. The denormalized ai_* write-through UPDATE onto
grievances_processed is not modelled (it feeds dashboards only); neither is
the nullable ai_entities_json column, which no control flow reads. -/

structure GrievanceProcessedRow where
  raw_id : Option String
  grievance_code : Option String
  grievance_id : String
  department_name : Option String
  status : Option String
  subject : Option String
  description : Option String
  closing_remark : Option String
  feedback_rating : Option Int
  resolution_days : Option Int
  forward_count : Option Int

/-- The hashed payload built at enrichment_service.py:753-763. -/
def ticketPayload (r : GrievanceProcessedRow) : Payload :=
  let gcode := pyStrip (pyOrS r.grievance_code r.grievance_id)
  [ ("grievance_code", if gcode = "" then .jnull else .js gcode)
  , ("department", optJS r.department_name)
  , ("status", optJS r.status)
  , ("subject", optJS r.subject)
  , ("description", optJS r.description)
  , ("closing_remark", optJS r.closing_remark)
  , ("rating", optJI r.feedback_rating)
  , ("resolution_days", optJI r.resolution_days)
  , ("forward_count", optJI r.forward_count) ]

/-- List-level suffix test. -/
def listEndsWith (l suffix : List Char) : Bool :=
  decide (l.drop (l.length - suffix.length) = suffix)

def isPrefixOfChars : List Char → List Char → Bool
  | [], _ => true
  | _ :: _, [] => false
  | a :: as, b :: bs => a == b && isPrefixOfChars as bs

/-- Substring containment (the Python `in` operator on str). -/
def containsSublist (pattern : List Char) : List Char → Bool
  | [] => pattern.isEmpty
  | c :: rest => isPrefixOfChars pattern (c :: rest) || containsSublist pattern rest

/-- Checkpoint keying strategy selection (enrichment_service.py:711):
row mode iff the source name ends with the id-unique marker or contains the
doubly-underscored variant. -/
def rowModeOf (source : String) : Bool :=
  listEndsWith source.toList "__id_unique".toList ||
    containsSublist "__id_unique__".toList source.toList

/-- Business-key resolution (enrichment_service.py:749-750): raw_id in row
mode, grievance_code falling back to grievance_id in ticket mode; stripped,
empty means no usable key. -/
def ticketKeyOf (rowMode : Bool) (r : GrievanceProcessedRow) : String :=
  if rowMode then pyStrip ((r.raw_id).getD "")
  else pyStrip (pyOrS r.grievance_code r.grievance_id)

/-- The nullable ai_* columns shared by TicketEnrichmentCheckpoint and
RowEnrichmentCheckpoint. -/
structure TicketAIFields where
  ai_category : Option String
  ai_subtopic : Option String
  ai_confidence : Option String
  ai_issue_type : Option String
  ai_urgency : Option String
  ai_sentiment : Option String
  ai_resolution_quality : Option String
  ai_reopen_risk : Option String
  ai_feedback_driver : Option String
  ai_closure_theme : Option String
  ai_extra_summary : Option String
deriving DecidableEq, Repr

def emptyAIFields : TicketAIFields :=
  ⟨none, none, none, none, none, none, none, none, none, none, none⟩

/-- One ticket/row enrichment checkpoint (models.py TicketEnrichmentCheckpoint
and RowEnrichmentCheckpoint, minus the wall-clock timestamp). -/
structure TicketCheckpoint where
  ai_input_hash : String
  ai_model : Option String
  ai_error : Option String
  fields : TicketAIFields
deriving DecidableEq, Repr

/-- One parsed model-output record for the ticket prompt. A key that is
absent and a key that is JSON null reach the same sanitized defaults in the
source, so both are modelled as none. -/
structure TicketModelOut where
  ai_category : Option String
  ai_subtopic : Option String
  ai_confidence : Option String
  ai_issue_type : Option String
  ai_urgency : Option String
  ai_sentiment : Option String
  ai_resolution_quality : Option String
  ai_reopen_risk : Option String
  ai_feedback_driver : Option String
  ai_closure_theme : Option String
  ai_extra_summary : Option String

/-- The sanitized record built per output row at
enrichment_service.py:653-670. -/
structure TicketClean where
  ai_category : Option String
  ai_subtopic : Option String
  ai_confidence : String
  ai_issue_type : Option String
  ai_urgency : String
  ai_sentiment : String
  ai_resolution_quality : String
  ai_reopen_risk : String
  ai_feedback_driver : Option String
  ai_closure_theme : Option String
  ai_extra_summary : Option String

/-- Python `x or None` on a sanitized string. -/
def orNone (s : String) : Option String := if s = "" then none else some s

def cleanTicketRecord (r : TicketModelOut) : TicketClean :=
  { ai_category := r.ai_category.map _category_sanitize
  , ai_subtopic := r.ai_subtopic.map _subtopic_sanitize
  , ai_confidence := _confidence_sanitize (r.ai_confidence.getD "")
  , ai_issue_type := orNone (_sanitize_short_phrase (r.ai_issue_type.getD "") 6)
  , ai_urgency := _sanitize_urgency (r.ai_urgency.getD "")
  , ai_sentiment := _sanitize_sentiment (r.ai_sentiment.getD "")
  , ai_resolution_quality := _sanitize_level (r.ai_resolution_quality.getD "Unknown")
  , ai_reopen_risk := _sanitize_level (r.ai_reopen_risk.getD "Unknown")
  , ai_feedback_driver := orNone (_sanitize_short_phrase (r.ai_feedback_driver.getD "") 6)
  , ai_closure_theme := orNone (_sanitize_short_phrase (r.ai_closure_theme.getD "") 6)
  , ai_extra_summary := orNone (_sanitize_summary (r.ai_extra_summary.getD "") 240) }

/-- Checkpoint columns from a sanitized record (the setattr loop / the
keyword-splat constructor calls). -/
def cleanToFields (c : TicketClean) : TicketAIFields :=
  { ai_category := c.ai_category
  , ai_subtopic := c.ai_subtopic
  , ai_confidence := some c.ai_confidence
  , ai_issue_type := c.ai_issue_type
  , ai_urgency := some c.ai_urgency
  , ai_sentiment := some c.ai_sentiment
  , ai_resolution_quality := some c.ai_resolution_quality
  , ai_reopen_risk := some c.ai_reopen_risk
  , ai_feedback_driver := c.ai_feedback_driver
  , ai_closure_theme := c.ai_closure_theme
  , ai_extra_summary := c.ai_extra_summary }

/-- The Gemini call made by `_batch_call` for the ticket prompt, as an oracle:
given the batch payloads it either raises (error text) or returns the parsed
records plus the model that produced them. -/
abbrev TicketOracle := List Payload → Except String (List TicketModelOut × String)

/-- EnrichmentService._ticket_enrich_batch (enrichment_service.py:643-671):
missing key raises, a length mismatch raises, otherwise every record is
sanitized in order. -/
def _ticket_enrich_batch (apiKey : Bool) (oracle : TicketOracle) (batch : List Payload) :
    Except String (List TicketClean × String) :=
  if ¬ apiKey then .error "RuntimeError: GEMINI_API_KEY is not configured"
  else
    match oracle batch with
    | .error e => .error e
    | .ok (out, model) =>
      if out.length ≠ batch.length then
        .error "ValueError: Ticket enrichment output length mismatch"
      else
        .ok (out.map cleanTicketRecord, model)

structure TicketMeta where
  key : String
  ih : String
  row : GrievanceProcessedRow

/-- Python truthiness of the optional limit_rows. -/
def limitTruthy : Option Nat → Bool
  | none => false
  | some l => l ≠ 0

/-- One row of the per-page resume loop (enrichment_service.py:747-812):
unusable keys are dropped silently, checkpoint hits are counted skipped (the
write-through onto grievances_processed is not modelled), everything else is
appended to the work/meta lists. -/
def ticketPageStep (force rowMode : Bool) (existing : List (String × TicketCheckpoint))
    (acc : Nat × List (Payload × TicketMeta)) (r : GrievanceProcessedRow) :
    Nat × List (Payload × TicketMeta) :=
  let key := ticketKeyOf rowMode r
  if key = "" then acc
  else
    let payload := ticketPayload r
    let ih := payloadHash payload
    match alGet existing key with
    | some prev =>
      if (!force) && prev.ai_input_hash == ih && prev.ai_error.isNone then
        (acc.1 + 1, acc.2)
      else
        (acc.1, acc.2 ++ [(payload, ⟨key, ih, r⟩)])
    | none => (acc.1, acc.2 ++ [(payload, ⟨key, ih, r⟩)])

/-- The paging while-loop (enrichment_service.py:732-812). The work and meta
lists are re-initialized at the top of each page iteration, so the pair
returned to the caller is the one of the final non-empty page — exactly as in
the source, where the batch loop sits after (outside) this while-loop. -/
def ticketPagesLoop (force rowMode : Bool) (existing : List (String × TicketCheckpoint))
    (limit : Option Nat) :
    Nat → List GrievanceProcessedRow → Nat → Nat → List (Payload × TicketMeta) →
    Nat × List (Payload × TicketMeta)
  | 0, _, _, skipped, wm => (skipped, wm)
  | fuel+1, remaining, seen, skipped, wm =>
    if limitTruthy limit && seen ≥ limit.getD 0 then (skipped, wm)
    else
      let page := remaining.take 200
      if page.isEmpty then (skipped, wm)
      else
        let acc := page.foldl (ticketPageStep force rowMode existing) (skipped, [])
        ticketPagesLoop force rowMode existing limit fuel (remaining.drop 200)
          (seen + page.length) acc.1 acc.2

structure TicketRunState where
  existing : List (String × TicketCheckpoint)
  processed : Nat
  skipped : Nat
  failed : Nat
  dispatched : List (List Payload)

/-- Failure upsert for one record of a failed batch
(enrichment_service.py:822-850): the input hash, model and error are always
(re)written; an existing checkpoint keeps its ai_* label columns, a fresh one
is created with them empty. -/
def markTicketFailedOne (msg : String) (store : List (String × TicketCheckpoint))
    (m : TicketMeta) : List (String × TicketCheckpoint) :=
  match alGet store m.key with
  | some prev =>
    alSet store m.key
      { prev with ai_input_hash := m.ih, ai_model := some gemini_model_fallback,
                  ai_error := some msg }
  | none =>
    alSet store m.key
      { ai_input_hash := m.ih, ai_model := some gemini_model_fallback,
        ai_error := some msg, fields := emptyAIFields }

/-- Success upsert for one record (enrichment_service.py:854-901): hash, all
ai_* fields, model, and a cleared error. -/
def upsertTicketSuccessOne (model_used : String) (store : List (String × TicketCheckpoint))
    (p : TicketMeta × TicketClean) : List (String × TicketCheckpoint) :=
  alSet store p.1.key
    { ai_input_hash := p.1.ih, ai_model := some model_used, ai_error := none,
      fields := cleanToFields p.2 }

/-- One batch of the enrichment loop (enrichment_service.py:814-928): a raised
exception marks every record of the batch failed and the run continues;
success upserts every record and counts it processed. -/
def processTicketBatch (apiKey : Bool) (oracle : TicketOracle) (st : TicketRunState)
    (chunk : List (Payload × TicketMeta)) : TicketRunState :=
  let sub := chunk.map (fun p => p.1)
  let subMeta := chunk.map (fun p => p.2)
  match _ticket_enrich_batch apiKey oracle sub with
  | .error msg =>
    { st with existing := subMeta.foldl (markTicketFailedOne msg) st.existing,
              failed := st.failed + subMeta.length,
              dispatched := st.dispatched ++ [sub] }
  | .ok (out, model_used) =>
    { st with existing := (subMeta.zip out).foldl (upsertTicketSuccessOne model_used) st.existing,
              processed := st.processed + (subMeta.zip out).length,
              dispatched := st.dispatched ++ [sub] }

structure TicketRunResult where
  status : String
  error : Option String
  total_rows : Nat
  processed : Nat
  skipped : Nat
  failed : Nat
  checkpoints : List (String × TicketCheckpoint)
  dispatched : List (List Payload)

/-- EnrichmentService._run_ticket_enrich (enrichment_service.py:673-963)
over the candidate rows of the source dataset (already query-ordered). The
batch loop runs after the page while-loop, on the work list of the final page, as
in the source; batch failures are absorbed and the run completes. -/
def _run_ticket_enrich (apiKey : Bool) (oracle : TicketOracle) (source : String)
    (rows : List GrievanceProcessedRow) (limit_rows : Option Nat) (force_reprocess : Bool)
    (existing0 : List (String × TicketCheckpoint)) : TicketRunResult :=
  let total_all := rows.length
  let total := if limitTruthy limit_rows then min total_all (limit_rows.getD 0) else total_all
  let rowMode := rowModeOf source
  let acc := ticketPagesLoop force_reprocess rowMode existing0 limit_rows
    (rows.length + 1) rows 0 0 []
  let st0 : TicketRunState := ⟨existing0, 0, acc.1, 0, []⟩
  let final := (chunksOf 10 acc.2).foldl (processTicketBatch apiKey oracle) st0
  { status := "completed", error := none, total_rows := total,
    processed := final.processed, skipped := final.skipped, failed := final.failed,
    checkpoints := final.existing, dispatched := final.dispatched }

/-! ### Legacy ingest-and-enrich path (_ingest_and_enrich and wrapper).

One row of the preprocessed input dataset. grievance_id is the cell value
after pandas astype(str), so a missing cell reads as the literal string nan.
The GrievanceRaw/GrievanceStructured analytics mirrors, the optional
extra-features stage and the CSV artifacts are not modelled: they do not feed
the run counters or the EnrichmentCheckpoint store the claims are about. -/

structure IngestRow where
  grievance_id : String
  subject : String
  description : String
deriving DecidableEq, Repr

/-- A dataset as seen after load: either the required canonical columns map
(schema check of _map_columns) or the whole run aborts. -/
structure IngestDataset where
  hasRequiredCols : Bool
  rows : List IngestRow

/-- Key resolution (enrichment_service.py:1251). -/
def ingestKeyOf (r : IngestRow) : String := pyStrip r.grievance_id

/-- The silent-exclusion test (enrichment_service.py:1252): empty or the
pandas NaN artifact. -/
def ingestValidKey (k : String) : Bool := k ≠ "" && pyLower k ≠ "nan"

structure IngestItem where
  grievance_key : String
  ai_input_text : String
  ai_input_hash : String

/-- models.py EnrichmentCheckpoint (minus the wall-clock timestamp). -/
structure EnrichmentCheckpoint where
  ai_input_hash : String
  ai_category : String
  ai_subtopic : String
  ai_confidence : String
  ai_model : String
  ai_error : Option String
deriving DecidableEq, Repr

/-- One raw labeled record as returned by the category/subtopic prompts
before sanitization (absent and null keys collapse to none). -/
structure RawLabel where
  category : Option String
  sub_topic : Option String
  confidence : Option String

structure MergedLabel where
  category : String
  sub_topic : String
  confidence : String

/-- The Gemini boundary of _label_batch as an oracle: the batch goes out, the
parsed records and the model used come back, or the call raises. -/
abbrev IngestOracle := List IngestItem → Except String (List RawLabel × String)

/-- EnrichmentService._label_batch (enrichment_service.py:422-462): missing
key raises; the two prompt calls are modelled as one oracle consultation;
the strict per-call length checks raise on mismatch; outputs are sanitized
in order. -/
def _label_batch (apiKey : Bool) (oracle : IngestOracle) (batch : List IngestItem) :
    Except String (List MergedLabel × String) :=
  if ¬ apiKey then .error "RuntimeError: GEMINI_API_KEY is not configured"
  else
    match oracle batch with
    | .error e => .error e
    | .ok (out, model) =>
      if out.length ≠ batch.length then .error "ValueError: Subtopic output length mismatch"
      else
        .ok (out.map (fun r =>
          { category := _category_sanitize (r.category.getD "")
          , sub_topic := _subtopic_sanitize (r.sub_topic.getD "")
          , confidence := _confidence_sanitize (r.confidence.getD "") }), model)

structure IngestState where
  cps : List (String × EnrichmentCheckpoint)
  processed : Nat
  skipped : Nat
  failed : Nat
  dispatched : List (List IngestItem)

/-- Failure handling for one record of a failed batch
(enrichment_service.py:1288-1318): under force_reprocess an existing
checkpoint without error is preserved untouched and the record is counted
skipped; otherwise the default-output checkpoint with the error is upserted
and the record is counted failed. The fresh per-key SELECT of the source and
its dict are collapsed into the single store here. -/
def ingestFailOne (force : Bool) (msg : String) (st : IngestState) (item : IngestItem) :
    IngestState :=
  let fallbackCp : EnrichmentCheckpoint :=
    { ai_input_hash := item.ai_input_hash, ai_category := "Other Civic Issues",
      ai_subtopic := "General Civic Issue", ai_confidence := "Low",
      ai_model := gemini_model_fallback, ai_error := some msg }
  match alGet st.cps item.grievance_key with
  | some prev =>
    if force && prev.ai_error.isNone then { st with skipped := st.skipped + 1 }
    else
      { st with cps := alSet st.cps item.grievance_key fallbackCp,
                failed := st.failed + 1 }
  | none =>
    { st with cps := alSet st.cps item.grievance_key fallbackCp,
              failed := st.failed + 1 }

/-- Success upsert for one record (enrichment_service.py:1324-1353): the
labels are sanitized once more, the error is cleared. -/
def ingestSuccessOne (model_used : String) (st : IngestState) (p : IngestItem × MergedLabel) :
    IngestState :=
  { st with
      cps := alSet st.cps p.1.grievance_key
        { ai_input_hash := p.1.ai_input_hash
        , ai_category := _category_sanitize p.2.category
        , ai_subtopic := _subtopic_sanitize p.2.sub_topic
        , ai_confidence := _confidence_sanitize p.2.confidence
        , ai_model := model_used, ai_error := none },
      processed := st.processed + 1 }

/-- One batch of the ingest enrichment loop (enrichment_service.py:1272-1356). -/
def processIngestBatch (apiKey : Bool) (oracle : IngestOracle) (force : Bool)
    (st : IngestState) (batch : List IngestItem) : IngestState :=
  let st := { st with dispatched := st.dispatched ++ [batch] }
  match _label_batch apiKey oracle batch with
  | .error e => batch.foldl (ingestFailOne force e) st
  | .ok (labeled, model_used) => (batch.zip labeled).foldl (ingestSuccessOne model_used) st

/-- One row of the resume split (enrichment_service.py:1250-1268): invalid
keys are dropped silently; a checkpoint hit with matching hash and no error
(unless forced) is counted skipped; the rest joins the work list. -/
def ingestSkipStep (force : Bool) (cps0 : List (String × EnrichmentCheckpoint))
    (acc : Nat × List IngestItem) (r : IngestRow) : Nat × List IngestItem :=
  let key := ingestKeyOf r
  if ¬ ingestValidKey key then acc
  else
    let text := _build_ai_input_text r.subject r.description
    let ih := _sha256 text
    match alGet cps0 key with
    | some ex =>
      if (!force) && ex.ai_input_hash == ih && ex.ai_error.isNone then (acc.1 + 1, acc.2)
      else (acc.1, acc.2 ++ [⟨key, text, ih⟩])
    | none => (acc.1, acc.2 ++ [⟨key, text, ih⟩])

/-- The resume split over all rows (enrichment_service.py:1249-1268). -/
def ingestSkipSplit (force : Bool) (cps0 : List (String × EnrichmentCheckpoint))
    (rows : List IngestRow) : Nat × List IngestItem :=
  rows.foldl (ingestSkipStep force cps0) (0, [])

structure IngestOutcome where
  total_rows : Nat
  processed : Nat
  skipped : Nat
  failed : Nat
  cps : List (String × EnrichmentCheckpoint)
  dispatched : List (List IngestItem)

/-- EnrichmentService._ingest_and_enrich (enrichment_service.py:1004-1410)
reduced to the enrichment core: the schema check of _map_columns is the only
modelled dataset-fatal error (it precedes every counter update), then the
resume split and the sequential batches of 10. -/
def _ingest_and_enrich (apiKey : Bool) (oracle : IngestOracle) (df : IngestDataset)
    (force : Bool) (cps0 : List (String × EnrichmentCheckpoint)) :
    Except String IngestOutcome :=
  if ¬ df.hasRequiredCols then .error "ValueError: Input file schema mismatch"
  else
    let acc := ingestSkipSplit force cps0 df.rows
    let st0 : IngestState := ⟨cps0, 0, acc.1, 0, []⟩
    let final := (chunksOf 10 acc.2).foldl (processIngestBatch apiKey oracle force) st0
    .ok ⟨df.rows.length, final.processed, final.skipped, final.failed,
         final.cps, final.dispatched⟩

/-- Number of candidate rows with a usable business key. -/
def countValidKeys (rows : List IngestRow) : Nat :=
  (rows.filter (fun r => ingestValidKey (ingestKeyOf r))).length

/-- The usable business keys of a row list. -/
def validKeysOf (rows : List IngestRow) : List String :=
  (rows.map ingestKeyOf).filter (fun k => ingestValidKey k)

/-- The ai_* columns currently stored for a key (empty columns when the key
has no checkpoint yet). -/
def checkpointFieldsAt (store : List (String × TicketCheckpoint)) (k : String) :
    TicketAIFields :=
  match alGet store k with
  | some cp => cp.fields
  | none => emptyAIFields

/-- The hex characters a digest may contain. -/
def hexChars : List Char := "0123456789abcdef".toList

/-! ## Helper lemmas -/

theorem alGet_alSet_self (st : List (String × α)) (k : String) (v : α) :
    alGet (alSet st k v) k = some v := by
  induction st with
  | nil => simp [alSet, alGet]
  | cons p ps ih =>
    by_cases h : p.1 = k
    · simp [alSet, alGet, h]
    · simp [alSet, alGet, h, ih]

theorem alGet_alSet_ne (st : List (String × α)) (k k' : String) (v : α) (h : k' ≠ k) :
    alGet (alSet st k v) k' = alGet st k' := by
  have h' : ¬ k = k' := fun hh => h hh.symm
  induction st with
  | nil => simp [alSet, alGet, h']
  | cons p ps ih =>
    by_cases hp : p.1 = k
    · simp [alSet, alGet, hp, h']
    · by_cases hp' : p.1 = k'
      · simp [alSet, alGet, hp, hp', h', h]
      · simp [alSet, alGet, hp, hp', ih]

theorem chunksOfAux_flatten (n : Nat) (hn : 0 < n) :
    ∀ (fuel : Nat) (l : List α), l.length < fuel → (chunksOfAux n fuel l).flatten = l := by
  intro fuel
  induction fuel with
  | zero => intro l hl; omega
  | succ f ih =>
    intro l hl
    match l with
    | [] => simp [chunksOfAux]
    | x :: xs =>
      show ((x :: xs).take n :: chunksOfAux n f ((x :: xs).drop n)).flatten = x :: xs
      have hlen : ((x :: xs).drop n).length < f := by
        rw [List.length_drop]
        simp only [List.length_cons] at hl ⊢
        omega
      rw [List.flatten_cons, ih _ hlen, List.take_append_drop]

theorem chunksOf_flatten (n : Nat) (hn : 0 < n) (l : List α) :
    (chunksOf n l).flatten = l :=
  chunksOfAux_flatten n hn (l.length + 1) l (Nat.lt_succ_self _)

theorem hexDigit_mem_hexChars (n : Nat) : hexDigit n ∈ hexChars := by
  unfold hexDigit
  split
  · next h => interval_cases n <;> decide
  · split
    · next h1 h2 =>
      have h1' : 10 ≤ n := by omega
      interval_cases n <;> decide
    · decide

theorem sum_map_two (l : List α) : (l.map (fun _ => (2 : Nat))).sum = 2 * l.length := by
  induction l with
  | nil => simp
  | cons x xs ih => simp [ih]; ring

theorem bytesToHexStr_length (bs : List Nat) : (bytesToHexStr bs).length = 2 * bs.length := by
  show (String.mk ((bs.map byteHex).flatten)).length = 2 * bs.length
  have h1 : (String.mk ((bs.map byteHex).flatten)).length = ((bs.map byteHex).flatten).length := rfl
  rw [h1, List.length_flatten, List.map_map]
  have h2 : (List.map (List.length ∘ byteHex) bs) = bs.map (fun _ => (2 : Nat)) := by
    apply List.map_congr_left
    intro b _
    rfl
  rw [h2, sum_map_two]

theorem sha256bytes_length (bs : List Nat) : (sha256bytes bs).length = 32 := by
  unfold sha256bytes digestBytes wordBytes
  simp

theorem bytesToHexStr_chars (bs : List Nat) :
    ∀ c ∈ (bytesToHexStr bs).toList, c ∈ hexChars := by
  intro c hc
  have hc' : c ∈ (bs.map byteHex).flatten := hc
  rw [List.mem_flatten] at hc'
  obtain ⟨sub, hsub, hcin⟩ := hc'
  rw [List.mem_map] at hsub
  obtain ⟨b, _, rfl⟩ := hsub
  have : c = hexDigit (b / 16) ∨ c = hexDigit (b % 16) := by
    simpa [byteHex] using hcin
  rcases this with rfl | rfl <;> exact hexDigit_mem_hexChars _

/-! ## C9 -/

/-- C9: the actionable score function is pure and deterministic (a plain
function of its record of inputs, modelled from the spec since the scoring
module is absent from the sources), and for every combination of inputs —
including all operational fields missing — it returns an integer in the
closed interval [0, 100]. -/
theorem claim_C9_score_bounded (i : ActionableInputs) :
    0 ≤ compute_actionable_score i ∧ compute_actionable_score i ≤ 100 :=
  ⟨le_min (by norm_num) (le_max_left 0 _), min_le_left _ _⟩

/-! ## C6 -/

/-- A transport oracle answering every request with a hard HTTP 400 whose
body is not the leaked-key marker. -/
def oracle400 : String → Nat → TransportOut := fun _ _ => .http 400 false none

def c7result : GenResult := generate_json true oracle400 .elist

/-- C7: evaluating generate_json against a permanent hard 4xx (HTTP 400 on
every call) shows the client does NOT move on after the first failure: the
primary model is attempted twice (attempt indices 0 and 1, with backoff
between them) before the fallback is tried, although _call_text raises these
very responses as the non-retryable GeminiError. This refutes the claim that
a hard non-429 4xx is not retried against the same model. -/
theorem claim_C7_hard4xx_retried_same_model :
    c7result.calls = [(gemini_model_primary, 0), (gemini_model_primary, 1),
      (gemini_model_fallback, 0), (gemini_model_fallback, 1)] ∧
    (c7result.calls.filter (fun c => c.1 = gemini_model_primary)).length = 2 ∧
    c7result.ok = false ∧
    c7result.error = some "GeminiError: Non-retryable Gemini error" := by
  refine ⟨rfl, rfl, rfl, rfl⟩

/-! ## C8 -/

theorem category_sanitize_mem (v : String) :
    _category_sanitize v ∈ ALLOWED_CATEGORIES := by
  unfold _category_sanitize
  dsimp only
  split
  · assumption
  · decide

theorem category_sanitize_oov (v : String) (h : pyStrip v ∉ ALLOWED_CATEGORIES) :
    _category_sanitize v = "Other Civic Issues" := by
  unfold _category_sanitize
  dsimp only
  split
  · exact absurd (by assumption) h
  · rfl

theorem subtopic_sanitize_empty (v : String) (h : stripCollapse v = "") :
    _subtopic_sanitize v = "General Civic Issue" := by
  unfold _subtopic_sanitize
  rw [h]
  rfl

theorem confidence_sanitize_mem (v : String) :
    _confidence_sanitize v ∈ ["High", "Medium", "Low"] := by
  unfold _confidence_sanitize
  dsimp only
  split
  · next h =>
    simp only [Bool.or_eq_true, decide_eq_true_eq, or_assoc] at h
    cases h with
    | inl h => rw [h]; decide
    | inr h =>
      cases h with
      | inl h => rw [h]; decide
      | inr h => rw [h]; decide
  · simp

theorem urgency_sanitize_mem (v : String) :
    _sanitize_urgency v ∈ ["Low", "Med", "High"] := by
  unfold _sanitize_urgency
  dsimp only
  split
  · next h =>
    simp only [Bool.or_eq_true, decide_eq_true_eq, or_assoc] at h
    cases h with
    | inl h => rw [h]; decide
    | inr h =>
      cases h with
      | inl h => rw [h]; decide
      | inr h => rw [h]; decide
  · split <;> simp

theorem sentiment_sanitize_mem (v : String) :
    _sanitize_sentiment v ∈ ["Neg", "Neu", "Pos"] := by
  unfold _sanitize_sentiment
  dsimp only
  split
  · next h =>
    simp only [Bool.or_eq_true, decide_eq_true_eq, or_assoc] at h
    cases h with
    | inl h => rw [h]; decide
    | inr h =>
      cases h with
      | inl h => rw [h]; decide
      | inr h => rw [h]; decide
  · split
    · simp
    · split
      · simp
      · split <;> simp

theorem ticket_enrich_batch_ok_length (apiKey : Bool) (oracle : TicketOracle)
    (batch : List Payload) (out : List TicketClean) (model : String)
    (h : _ticket_enrich_batch apiKey oracle batch = .ok (out, model)) :
    out.length = batch.length := by
  unfold _ticket_enrich_batch at h
  split at h
  · exact absurd h (by simp)
  · cases ho : oracle batch with
    | error e => rw [ho] at h; exact absurd h (by simp)
    | ok p =>
      rw [ho] at h
      dsimp only at h
      split at h
      · exact absurd h (by simp)
      · next hlen =>
        simp only [Except.ok.injEq, Prod.mk.injEq] at h
        obtain ⟨rfl, rfl⟩ := h
        simp only [List.length_map]
        omega

/-- C8: vocabulary coercion. Every sanitized category lands in the closed
vocabulary and an out-of-vocabulary category becomes the designated bucket
Other Civic Issues, never the raw string; an empty subtopic becomes the
generic label General Civic Issue; confidence, urgency and sentiment are
coerced into their closed vocabularies; a successfully classified batch
keeps one sanitized record per input record (nothing is discarded for a
vocabulary violation); and the success upsert stores the coerced record with
the error column cleared, so no error is recorded for a coercion. -/
theorem claim_C8_vocabulary_coercion :
    (∀ v, _category_sanitize v ∈ ALLOWED_CATEGORIES) ∧
    (∀ v, pyStrip v ∉ ALLOWED_CATEGORIES → _category_sanitize v = "Other Civic Issues") ∧
    (∀ v, stripCollapse v = "" → _subtopic_sanitize v = "General Civic Issue") ∧
    (∀ v, _confidence_sanitize v ∈ ["High", "Medium", "Low"]) ∧
    (∀ v, _sanitize_urgency v ∈ ["Low", "Med", "High"]) ∧
    (∀ v, _sanitize_sentiment v ∈ ["Neg", "Neu", "Pos"]) ∧
    (∀ (apiKey : Bool) (oracle : TicketOracle) batch out model,
      _ticket_enrich_batch apiKey oracle batch = .ok (out, model) →
      out.length = batch.length) ∧
    (∀ (model_used : String) store (m : TicketMeta) (c : TicketClean),
      alGet (upsertTicketSuccessOne model_used store (m, c)) m.key =
        some { ai_input_hash := m.ih, ai_model := some model_used, ai_error := none,
               fields := cleanToFields c }) :=
  ⟨category_sanitize_mem, category_sanitize_oov, subtopic_sanitize_empty,
   confidence_sanitize_mem, urgency_sanitize_mem, sentiment_sanitize_mem,
   ticket_enrich_batch_ok_length,
   fun _mu store m _c => alGet_alSet_self store m.key _⟩

/-- C8 witness: a drifted category is coerced to the designated bucket, an
empty subtopic to the generic label, and an out-of-vocabulary urgency into
the closed vocabulary, at concrete inputs. -/
theorem claim_C8_vocabulary_coercion_witness :
    (pyStrip "Potholes Everywhere" ∉ ALLOWED_CATEGORIES) ∧
    _category_sanitize "Potholes Everywhere" = "Other Civic Issues" ∧
    (stripCollapse "  " = "") ∧
    _subtopic_sanitize "  " = "General Civic Issue" ∧
    _sanitize_urgency "URGENT!!" ∈ ["Low", "Med", "High"] :=
  ⟨by decide,
   claim_C8_vocabulary_coercion.2.1 "Potholes Everywhere" (by decide),
   by decide,
   claim_C8_vocabulary_coercion.2.2.1 "  " (by decide),
   claim_C8_vocabulary_coercion.2.2.2.2.1 "URGENT!!"⟩

/-! ## C2 -/

theorem char_eq_of_toNat_eq (a b : Char) (h : a.toNat = b.toNat) : a = b :=
  Char.eq_of_val_eq (UInt32.toNat.inj h)

theorem string_eq_of_toList_eq (s t : String) (h : s.toList = t.toList) : s = t := by
  cases s
  cases t
  exact congrArg String.mk h

theorem strLeChars_total (a : List Char) : ∀ b, strLeChars a b = true ∨ strLeChars b a = true := by
  induction a with
  | nil => intro b; left; rfl
  | cons x xs ih =>
    intro b
    cases b with
    | nil => right; rfl
    | cons y ys =>
      rcases Nat.lt_trichotomy x.toNat y.toNat with h | h | h
      · left; unfold strLeChars; simp [h]
      · have h1 : ¬ x.toNat < y.toNat := by omega
        have h2 : ¬ y.toNat < x.toNat := by omega
        rcases ih ys with hl | hr
        · left; unfold strLeChars; simp [h1, h2, hl]
        · right; unfold strLeChars; simp [h1, h2, hr]
      · right; unfold strLeChars; simp [h]

theorem strLeChars_antisymm (a : List Char) :
    ∀ b, strLeChars a b = true → strLeChars b a = true → a = b := by
  induction a with
  | nil =>
    intro b hab hba
    cases b with
    | nil => rfl
    | cons y ys => simp [strLeChars] at hba
  | cons x xs ih =>
    intro b hab hba
    cases b with
    | nil => simp [strLeChars] at hab
    | cons y ys =>
      unfold strLeChars at hab hba
      by_cases h1 : x.toNat < y.toNat
      · have h2 : ¬ y.toNat < x.toNat := by omega
        rw [if_neg h2, if_pos h1] at hba
        simp at hba
      · by_cases h2 : y.toNat < x.toNat
        · rw [if_neg h1, if_pos h2] at hab
          simp at hab
        · have hx : x = y := char_eq_of_toNat_eq _ _ (by omega)
          rw [if_neg h1, if_neg h2] at hab
          rw [if_neg h2, if_neg h1] at hba
          rw [hx, ih ys hab hba]

theorem strLeChars_trans (a : List Char) :
    ∀ b c, strLeChars a b = true → strLeChars b c = true → strLeChars a c = true := by
  induction a with
  | nil => intro b c _ _; rfl
  | cons x xs ih =>
    intro b c h1 h2
    cases b with
    | nil => simp [strLeChars] at h1
    | cons y ys =>
      cases c with
      | nil => simp [strLeChars] at h2
      | cons z zs =>
        unfold strLeChars at h1 h2 ⊢
        by_cases hxy : x.toNat < y.toNat
        · by_cases hyz : y.toNat < z.toNat
          · have hxz : x.toNat < z.toNat := by omega
            simp [hxz]
          · by_cases hzy : z.toNat < y.toNat
            · rw [if_neg hyz, if_pos hzy] at h2
              simp at h2
            · have hxz : x.toNat < z.toNat := by omega
              simp [hxz]
        · by_cases hyx : y.toNat < x.toNat
          · rw [if_neg hxy, if_pos hyx] at h1
            simp at h1
          · by_cases hyz : y.toNat < z.toNat
            · have hxz : x.toNat < z.toNat := by omega
              simp [hxz]
            · by_cases hzy : z.toNat < y.toNat
              · rw [if_neg hyz, if_pos hzy] at h2
                simp at h2
              · have hxz : ¬ x.toNat < z.toNat := by omega
                have hzx : ¬ z.toNat < x.toNat := by omega
                rw [if_neg hxy, if_neg hyx] at h1
                rw [if_neg hyz, if_neg hzy] at h2
                rw [if_neg hxz, if_neg hzx]
                exact ih ys zs h1 h2

theorem strLe_antisymm (a b : String) (hab : strLe a b = true) (hba : strLe b a = true) :
    a = b :=
  string_eq_of_toList_eq a b (strLeChars_antisymm a.toList b.toList hab hba)

/-- The key preorder used to sort payload items. -/
def leKey (p q : String × JVal) : Prop := strLe p.1 q.1 = true

/-- The strict key order on items with distinct keys. -/
def ltKey (p q : String × JVal) : Prop := strLe p.1 q.1 = true ∧ p.1 ≠ q.1

instance : IsAntisymm (String × JVal) ltKey :=
  ⟨fun _ _ hab hba => absurd (strLe_antisymm _ _ hab.1 hba.1) hab.2⟩

theorem insertPair_perm (p : String × JVal) (l : Payload) :
    List.Perm (insertPair p l) (p :: l) := by
  induction l with
  | nil => exact List.Perm.refl _
  | cons q qs ih =>
    unfold insertPair
    split
    · exact List.Perm.refl _
    · exact (ih.cons q).trans (List.Perm.swap p q qs)

theorem sortPairs_perm (l : Payload) : List.Perm (sortPairs l) l := by
  induction l with
  | nil => exact List.Perm.refl _
  | cons p ps ih => exact (insertPair_perm p (sortPairs ps)).trans (ih.cons p)

theorem insertPair_sorted (p : String × JVal) (l : Payload) (h : l.Pairwise leKey) :
    (insertPair p l).Pairwise leKey := by
  induction l with
  | nil => exact List.pairwise_singleton _ _
  | cons q qs ih =>
    rw [List.pairwise_cons] at h
    unfold insertPair
    split
    · next hle =>
      rw [List.pairwise_cons]
      refine ⟨?_, List.pairwise_cons.mpr h⟩
      intro b hb
      rcases List.mem_cons.mp hb with rfl | hb'
      · exact hle
      · exact strLeChars_trans _ _ _ hle (h.1 b hb')
    · next hnle =>
      have hqp : leKey q p := by
        rcases strLeChars_total p.1.toList q.1.toList with hl | hr
        · exact absurd hl hnle
        · exact hr
      rw [List.pairwise_cons]
      refine ⟨?_, ih h.2⟩
      intro b hb
      have hb' : b ∈ p :: qs := (insertPair_perm p qs).mem_iff.mp hb
      rcases List.mem_cons.mp hb' with rfl | hb''
      · exact hqp
      · exact h.1 b hb''

theorem sortPairs_sorted (l : Payload) : (sortPairs l).Pairwise leKey := by
  induction l with
  | nil => exact List.Pairwise.nil
  | cons p ps ih => exact insertPair_sorted p (sortPairs ps) ih

theorem sortPairs_eq_of_perm (p q : Payload) (hp : List.Perm p q)
    (hnd : (p.map Prod.fst).Nodup) : sortPairs p = sortPairs q := by
  have hndq : (q.map Prod.fst).Nodup := ((hp.map Prod.fst).nodup_iff).mp hnd
  have hperm : List.Perm (sortPairs p) (sortPairs q) :=
    ((sortPairs_perm p).trans hp).trans (sortPairs_perm q).symm
  have hndp' : (sortPairs p).Pairwise (fun a b => a.1 ≠ b.1) :=
    ((sortPairs_perm p).pairwise_iff (fun h => Ne.symm h)).mpr (List.pairwise_map.mp hnd)
  have hndq' : (sortPairs q).Pairwise (fun a b => a.1 ≠ b.1) :=
    ((sortPairs_perm q).pairwise_iff (fun h => Ne.symm h)).mpr (List.pairwise_map.mp hndq)
  have hsp : (sortPairs p).Pairwise ltKey := (sortPairs_sorted p).and hndp'
  have hsq : (sortPairs q).Pairwise ltKey := (sortPairs_sorted q).and hndq'
  exact List.eq_of_perm_of_sorted hperm hsp hsq

/-- C2: the canonical payload hash is invariant under field insertion order —
for every two payloads holding the same key/value pairs (distinct keys, as in
a dict) in any order, the computed input hash is identical — and the digest
of a payload is always a 256-bit value encoded as 64 lowercase hex
characters; hashing is a plain function, so repeated hashing of the same
payload yields the same digest by construction. -/
theorem claim_C2_hash_order_invariant (p q : Payload) (hperm : List.Perm p q)
    (hnd : (p.map Prod.fst).Nodup) :
    payloadHash p = payloadHash q ∧
    (payloadHash p).length = 64 ∧
    (∀ c ∈ (payloadHash p).toList, c ∈ hexChars) := by
  refine ⟨?_, ?_, ?_⟩
  · unfold payloadHash json_dumps_sorted
    rw [sortPairs_eq_of_perm p q hperm hnd]
  · unfold payloadHash _sha256
    rw [bytesToHexStr_length, sha256bytes_length]
  · intro c hc
    exact bytesToHexStr_chars _ c hc

def c2p : Payload := [("subject", .js "water leak"), ("rating", .ji 3), ("department", .jnull)]

def c2q : Payload := [("department", .jnull), ("subject", .js "water leak"), ("rating", .ji 3)]

/-- C2 witness: two permutations of the same three-field payload hash
identically. -/
theorem claim_C2_hash_order_invariant_witness :
    List.Perm c2p c2q ∧ (c2p.map Prod.fst).Nodup ∧ payloadHash c2p = payloadHash c2q :=
  ⟨by decide, by decide,
   (claim_C2_hash_order_invariant c2p c2q (by decide) (by decide)).1⟩

/-! ## C1 -/

/-- An ingest row whose checkpoint matches: valid key, stored hash equal to
the recomputed hash, and no stored error. -/
def ingestFresh (cps0 : List (String × EnrichmentCheckpoint)) (r : IngestRow) : Prop :=
  ingestValidKey (ingestKeyOf r) = true ∧
  ∃ cp, alGet cps0 (ingestKeyOf r) = some cp ∧
    cp.ai_input_hash = _sha256 (_build_ai_input_text r.subject r.description) ∧
    cp.ai_error = none

theorem ingestSkipStep_skip (cps0 : List (String × EnrichmentCheckpoint))
    (acc : Nat × List IngestItem) (r : IngestRow) (h : ingestFresh cps0 r) :
    ingestSkipStep false cps0 acc r = (acc.1 + 1, acc.2) := by
  obtain ⟨hv, cp, hget, hhash, herr⟩ := h
  unfold ingestSkipStep
  dsimp only
  rw [hget]
  simp [hv, hhash, herr]

theorem ingestSkipFold_skip (cps0 : List (String × EnrichmentCheckpoint))
    (rows : List IngestRow) (h : ∀ r ∈ rows, ingestFresh cps0 r) :
    ∀ acc : Nat × List IngestItem,
      rows.foldl (ingestSkipStep false cps0) acc = (acc.1 + rows.length, acc.2) := by
  induction rows with
  | nil => intro acc; simp
  | cons r rest ih =>
    intro acc
    rw [List.foldl_cons, ingestSkipStep_skip cps0 acc r (h r (by simp)),
        ih (fun x hx => h x (by simp [hx]))]
    simp
    omega

/-- A ticket row whose checkpoint matches under the given keying mode. -/
def ticketFresh (rowMode : Bool) (ex0 : List (String × TicketCheckpoint))
    (r : GrievanceProcessedRow) : Prop :=
  ticketKeyOf rowMode r ≠ "" ∧
  ∃ cp, alGet ex0 (ticketKeyOf rowMode r) = some cp ∧
    cp.ai_input_hash = payloadHash (ticketPayload r) ∧
    cp.ai_error = none

theorem ticketPageStep_skip (rowMode : Bool) (ex0 : List (String × TicketCheckpoint))
    (acc : Nat × List (Payload × TicketMeta)) (r : GrievanceProcessedRow)
    (h : ticketFresh rowMode ex0 r) :
    ticketPageStep false rowMode ex0 acc r = (acc.1 + 1, acc.2) := by
  obtain ⟨hk, cp, hget, hhash, herr⟩ := h
  unfold ticketPageStep
  dsimp only
  rw [if_neg hk, hget]
  simp [hhash, herr]

theorem ticketPageFold_skip (rowMode : Bool) (ex0 : List (String × TicketCheckpoint))
    (page : List GrievanceProcessedRow) (h : ∀ r ∈ page, ticketFresh rowMode ex0 r) :
    ∀ skipped : Nat,
      page.foldl (ticketPageStep false rowMode ex0) (skipped, []) =
        (skipped + page.length, []) := by
  induction page with
  | nil => intro skipped; simp
  | cons r rest ih =>
    intro skipped
    rw [List.foldl_cons, ticketPageStep_skip rowMode ex0 (skipped, []) r (h r (by simp)),
        ih (fun x hx => h x (by simp [hx]))]
    simp
    omega

theorem ticketPagesLoop_all_skip (rowMode : Bool) (ex0 : List (String × TicketCheckpoint)) :
    ∀ (fuel : Nat) (rows : List GrievanceProcessedRow), rows.length < fuel →
      (∀ r ∈ rows, ticketFresh rowMode ex0 r) →
      ∀ (seen skipped : Nat),
        ticketPagesLoop false rowMode ex0 none fuel rows seen skipped [] =
          (skipped + rows.length, []) := by
  intro fuel
  induction fuel with
  | zero => intro rows h; omega
  | succ f ih =>
    intro rows hlen hfresh seen skipped
    show (if limitTruthy none && seen ≥ (none : Option Nat).getD 0 then (skipped, [])
          else _) = _
    rw [if_neg (by simp [limitTruthy])]
    cases hr : rows with
    | nil => simp
    | cons r0 rest =>
      have hne : (rows.take 200).isEmpty = false := by
        rw [hr]
        rfl
      rw [← hr]
      dsimp only
      rw [if_neg (by simp [hne])]
      rw [ticketPageFold_skip rowMode ex0 (rows.take 200)
        (fun x hx => hfresh x (List.take_subset 200 rows hx)) skipped]
      rw [ih (rows.drop 200)
        (by rw [List.length_drop]; rw [hr] at hlen ⊢; simp at hlen ⊢; omega)
        (fun x hx => hfresh x (List.drop_subset 200 rows hx))]
      have hlen2 : (rows.take 200).length + (rows.drop 200).length = rows.length := by
        rw [List.length_take, List.length_drop]
        omega
      rw [Prod.mk.injEq]
      exact ⟨by omega, rfl⟩

/-- C1: the resume guarantee on both orchestration paths. If every candidate
row has a usable business key and an existing checkpoint whose stored hash
equals the hash of the current payload of the row with no stored error, and force
reprocessing was not requested, then every row is counted skipped, no batch
is dispatched to the classification client, and the run ends with
processed = 0 and skipped = totalRows with the checkpoint store unchanged —
in particular a second run over an unchanged dataset issues zero
classification calls. -/
theorem claim_C1_resume_skip :
    (∀ (apiKey : Bool) (oracle : IngestOracle) (df : IngestDataset)
        (cps0 : List (String × EnrichmentCheckpoint)),
      df.hasRequiredCols = true →
      (∀ r ∈ df.rows, ingestFresh cps0 r) →
      _ingest_and_enrich apiKey oracle df false cps0 =
        .ok ⟨df.rows.length, 0, df.rows.length, 0, cps0, []⟩) ∧
    (∀ (apiKey : Bool) (oracle : TicketOracle) (source : String)
        (rows : List GrievanceProcessedRow) (ex0 : List (String × TicketCheckpoint)),
      (∀ r ∈ rows, ticketFresh (rowModeOf source) ex0 r) →
      _run_ticket_enrich apiKey oracle source rows none false ex0 =
        ⟨"completed", none, rows.length, 0, rows.length, 0, ex0, []⟩) := by
  constructor
  · intro apiKey oracle df cps0 hcols hfresh
    unfold _ingest_and_enrich
    rw [if_neg (by simp [hcols])]
    have hsplit : ingestSkipSplit false cps0 df.rows = (df.rows.length, []) := by
      unfold ingestSkipSplit
      rw [ingestSkipFold_skip cps0 df.rows hfresh (0, [])]
      simp
    dsimp only
    rw [hsplit]
    rfl
  · intro apiKey oracle source rows ex0 hfresh
    unfold _run_ticket_enrich
    have hloop : ticketPagesLoop false (rowModeOf source) ex0 none
        (rows.length + 1) rows 0 0 [] = (rows.length, []) := by
      rw [ticketPagesLoop_all_skip (rowModeOf source) ex0 (rows.length + 1) rows
        (Nat.lt_succ_self _) hfresh 0 0]
      simp
    dsimp only
    rw [hloop]
    rfl

def c1row : IngestRow := ⟨"G1", "Water leak", "Near the park"⟩

def c1cp : EnrichmentCheckpoint :=
  ⟨_sha256 (_build_ai_input_text "Water leak" "Near the park"),
   "Water Supply", "Pipe Leakage", "High", "gemini-3-pro", none⟩

def c1trow : GrievanceProcessedRow :=
  { raw_id := none, grievance_code := some "T1", grievance_id := "T1",
    department_name := some "Water", status := some "Closed",
    subject := some "Leak", description := none, closing_remark := none,
    feedback_rating := none, resolution_days := none, forward_count := none }

def c1tcp : TicketCheckpoint :=
  { ai_input_hash := payloadHash (ticketPayload c1trow),
    ai_model := some "gemini-3-pro", ai_error := none,
    fields := { emptyAIFields with ai_category := some "Water Supply" } }

/-- C1 witness: a one-row dataset whose checkpoint matches skips entirely on
both paths. -/
theorem claim_C1_resume_skip_witness :
    _ingest_and_enrich true (fun _ => .error "unused") ⟨true, [c1row]⟩ false
      [("G1", c1cp)] = .ok ⟨1, 0, 1, 0, [("G1", c1cp)], []⟩ ∧
    _run_ticket_enrich true (fun _ => .error "unused") "close_dump" [c1trow] none false
      [("T1", c1tcp)] = ⟨"completed", none, 1, 0, 1, 0, [("T1", c1tcp)], []⟩ := by
  constructor
  · exact claim_C1_resume_skip.1 true (fun _ => .error "unused") ⟨true, [c1row]⟩
      [("G1", c1cp)] rfl
      (by
        intro r hr
        rw [List.mem_singleton] at hr
        subst hr
        refine ⟨by decide, c1cp, ?_, ?_, ?_⟩ <;> rfl)
  · exact claim_C1_resume_skip.2 true (fun _ => .error "unused") "close_dump" [c1trow]
      [("T1", c1tcp)]
      (by
        intro r hr
        rw [List.mem_singleton] at hr
        subst hr
        refine ⟨by decide, c1tcp, ?_, ?_, ?_⟩ <;> rfl)

/-! ## C4 -/

/-- A key holds a checkpoint carrying the batch error with its prior ai_*
columns. -/
def markedWith (msg : String) (store : List (String × TicketCheckpoint)) (k : String)
    (f : TicketAIFields) : Prop :=
  ∃ cp, alGet store k = some cp ∧ cp.ai_error = some msg ∧ cp.fields = f

theorem checkpointFieldsAt_mark (msg : String) (store : List (String × TicketCheckpoint))
    (m : TicketMeta) (k : String) :
    checkpointFieldsAt (markTicketFailedOne msg store m) k = checkpointFieldsAt store k := by
  by_cases hk : k = m.key
  · subst hk
    unfold markTicketFailedOne checkpointFieldsAt
    cases hget : alGet store m.key with
    | none => simp [alGet_alSet_self]
    | some prev => simp [alGet_alSet_self]
  · unfold markTicketFailedOne checkpointFieldsAt
    cases hget : alGet store m.key with
    | none => rw [alGet_alSet_ne _ _ _ _ hk]
    | some prev => rw [alGet_alSet_ne _ _ _ _ hk]

theorem mark_establishes (msg : String) (store : List (String × TicketCheckpoint))
    (m : TicketMeta) :
    markedWith msg (markTicketFailedOne msg store m) m.key (checkpointFieldsAt store m.key) := by
  unfold markTicketFailedOne checkpointFieldsAt
  cases hget : alGet store m.key with
  | none => exact ⟨_, alGet_alSet_self _ _ _, rfl, rfl⟩
  | some prev => exact ⟨_, alGet_alSet_self _ _ _, rfl, rfl⟩

theorem mark_preserves (msg : String) (store : List (String × TicketCheckpoint))
    (m : TicketMeta) (k : String) (f : TicketAIFields) (h : markedWith msg store k f) :
    markedWith msg (markTicketFailedOne msg store m) k f := by
  obtain ⟨cp, hget, herr, hf⟩ := h
  by_cases hk : k = m.key
  · subst hk
    unfold markTicketFailedOne
    rw [hget]
    exact ⟨_, alGet_alSet_self _ _ _, rfl, hf⟩
  · unfold markTicketFailedOne
    cases alGet store m.key with
    | none => exact ⟨cp, by rw [alGet_alSet_ne _ _ _ _ hk]; exact hget, herr, hf⟩
    | some prev => exact ⟨cp, by rw [alGet_alSet_ne _ _ _ _ hk]; exact hget, herr, hf⟩

theorem markFold_preserves (msg : String) (metas : List TicketMeta)
    (store : List (String × TicketCheckpoint)) (k : String) (f : TicketAIFields)
    (h : markedWith msg store k f) :
    markedWith msg (metas.foldl (markTicketFailedOne msg) store) k f := by
  induction metas generalizing store with
  | nil => exact h
  | cons m0 rest ih => exact ih _ (mark_preserves msg store m0 k f h)

theorem markFold_mem (msg : String) (metas : List TicketMeta)
    (store : List (String × TicketCheckpoint)) (m : TicketMeta) (hm : m ∈ metas) :
    markedWith msg (metas.foldl (markTicketFailedOne msg) store) m.key
      (checkpointFieldsAt store m.key) := by
  induction metas generalizing store with
  | nil => cases hm
  | cons m0 rest ih =>
    rw [List.foldl_cons]
    rcases List.mem_cons.mp hm with rfl | hm'
    · exact markFold_preserves msg rest _ m.key _ (mark_establishes msg store m)
    · rw [← checkpointFieldsAt_mark msg store m0 m.key]
      exact ih _ hm'

theorem ticket_enrich_batch_len_mismatch (oracle : TicketOracle) (sub : List Payload)
    (out : List TicketModelOut) (model : String)
    (horacle : oracle sub = .ok (out, model)) (hlen : out.length ≠ sub.length) :
    _ticket_enrich_batch true oracle sub =
      .error "ValueError: Ticket enrichment output length mismatch" := by
  unfold _ticket_enrich_batch
  rw [horacle]
  simp [hlen]

/-- C4: batch atomicity on the ticket enrichment path. When the classification
call returns an array whose length differs from the batch length, the whole
batch is treated as failed: the failed counter grows by the full batch size,
the processed counter is untouched, and every record of the batch ends with a
checkpoint carrying the length-mismatch error whose ai_* output columns are
exactly what they were before the batch (a fresh checkpoint stays empty), so
no record receives any of the partial outputs. -/
theorem claim_C4_batch_atomicity (oracle : TicketOracle) (st : TicketRunState)
    (chunk : List (Payload × TicketMeta)) (out : List TicketModelOut) (model : String)
    (horacle : oracle (chunk.map (fun p => p.1)) = .ok (out, model))
    (hlen : out.length ≠ chunk.length) :
    (processTicketBatch true oracle st chunk).processed = st.processed ∧
    (processTicketBatch true oracle st chunk).failed = st.failed + chunk.length ∧
    ∀ m ∈ chunk.map (fun p => p.2),
      ∃ cp, alGet (processTicketBatch true oracle st chunk).existing m.key = some cp ∧
        cp.ai_error = some "ValueError: Ticket enrichment output length mismatch" ∧
        cp.fields = checkpointFieldsAt st.existing m.key := by
  have hlen' : out.length ≠ (chunk.map (fun p => p.1)).length := by
    rw [List.length_map]
    exact hlen
  have hbatch := ticket_enrich_batch_len_mismatch oracle (chunk.map (fun p => p.1)) out model
    horacle hlen'
  unfold processTicketBatch
  dsimp only
  rw [hbatch]
  refine ⟨rfl, by simp, ?_⟩
  intro m hm
  exact markFold_mem _ (chunk.map (fun p => p.2)) st.existing m hm

def c4meta1 : TicketMeta := ⟨"K1", "h1", c1trow⟩

def c4meta2 : TicketMeta := ⟨"K2", "h2", c1trow⟩

def c4out : TicketModelOut :=
  ⟨none, none, none, none, none, none, none, none, none, none, none⟩

def c4oracle : TicketOracle := fun _ => .ok ([c4out], "gemini-3-pro")

def c4chunk : List (Payload × TicketMeta) := [([], c4meta1), ([], c4meta2)]

def c4state : TicketRunState := ⟨[], 0, 0, 0, []⟩

/-- C4 witness: a two-record batch answered with one output is wholly failed. -/
theorem claim_C4_batch_atomicity_witness :
    c4oracle (c4chunk.map (fun p => p.1)) = .ok ([c4out], "gemini-3-pro") ∧
    ([c4out].length ≠ c4chunk.length) ∧
    (processTicketBatch true c4oracle c4state c4chunk).failed = c4state.failed + c4chunk.length :=
  ⟨rfl, by decide,
   (claim_C4_batch_atomicity c4oracle c4state c4chunk [c4out] "gemini-3-pro" rfl
     (by decide)).2.1⟩

/-! ## C5 -/

def c5row : GrievanceProcessedRow :=
  { raw_id := none, grievance_code := some "K", grievance_id := "K",
    department_name := none, status := none, subject := some "leaky pipe",
    description := none, closing_remark := none, feedback_rating := none,
    resolution_days := none, forward_count := none }

def c5prev : TicketCheckpoint :=
  { ai_input_hash := "stalehash", ai_model := some "gemini-3-pro", ai_error := none,
    fields := { emptyAIFields with ai_category := some "Water Supply" } }

def c5res : TicketRunResult :=
  _run_ticket_enrich true (fun _ => .error "RuntimeError: Gemini batch failed")
    "close_dump" [c5row] none true [("K", c5prev)]

/-- C5 counterexample: on the ticket enrichment path, with forceReprocess
true and a failing classification call, the record whose existing checkpoint
had no stored error does NOT keep its checkpoint unchanged — the error
column IS set (and the record counts failed), refuting the claim for this
path. The ai_* label columns themselves are preserved. -/
theorem claim_C5_counterexample :
    (alGet c5res.checkpoints "K").map (fun cp => cp.ai_error) =
      some (some "RuntimeError: Gemini batch failed") ∧
    c5res.failed = 1 ∧
    (alGet c5res.checkpoints "K").map (fun cp => cp.fields.ai_category) =
      some (some "Water Supply") := by
  refine ⟨rfl, rfl, rfl⟩

theorem ingestFailFold_preserve (msg : String) (batch : List IngestItem) :
    ∀ (st : IngestState) (k : String) (prev : EnrichmentCheckpoint),
      alGet st.cps k = some prev → prev.ai_error = none →
      alGet ((batch.foldl (ingestFailOne true msg) st).cps) k = some prev := by
  induction batch with
  | nil => intro st k prev hget _; exact hget
  | cons item rest ih =>
    intro st k prev hget herr
    rw [List.foldl_cons]
    have hstep : alGet ((ingestFailOne true msg st item).cps) k = some prev := by
      unfold ingestFailOne
      cases hx : alGet st.cps item.grievance_key with
      | some p =>
        by_cases hperr : p.ai_error.isNone
        · simp [hperr, hget]
        · simp only [hperr, Bool.and_false]
          by_cases hk : k = item.grievance_key
          · subst hk
            rw [hget] at hx
            cases hx
            rw [herr] at hperr
            exact absurd rfl hperr
          · dsimp only
            rw [if_neg (by simp [hperr])]
            dsimp only
            rw [alGet_alSet_ne _ _ _ _ hk]
            exact hget
      | none =>
        by_cases hk : k = item.grievance_key
        · subst hk
          rw [hget] at hx
          cases hx
        · dsimp only
          rw [alGet_alSet_ne _ _ _ _ hk]
          exact hget
    exact ih _ k prev hstep herr

/-- C5 amended: with forceReprocess=true and a failing classification call,
the force-preserve behaviour holds only on the legacy ingest path: there,
every record whose existing checkpoint has no stored error keeps that
checkpoint completely unchanged (the record is counted skipped, not failed).
On the ticket path the existing checkpoint keeps its ai_* label columns but
its input hash, model and error columns are overwritten — the error IS set. -/
theorem claim_C5_force_preserve :
    (∀ (msg : String) (st : IngestState) (item : IngestItem) (prev : EnrichmentCheckpoint),
      alGet st.cps item.grievance_key = some prev → prev.ai_error = none →
      ingestFailOne true msg st item = { st with skipped := st.skipped + 1 }) ∧
    (∀ (apiKey : Bool) (oracle : IngestOracle) (st : IngestState) (batch : List IngestItem)
        (msg : String),
      _label_batch apiKey oracle batch = .error msg →
      ∀ item ∈ batch, ∀ prev, alGet st.cps item.grievance_key = some prev →
        prev.ai_error = none →
        alGet ((processIngestBatch apiKey oracle true st batch).cps) item.grievance_key =
          some prev) ∧
    (∀ (msg : String) (store : List (String × TicketCheckpoint)) (m : TicketMeta)
        (prev : TicketCheckpoint),
      alGet store m.key = some prev →
      ∃ cp, alGet (markTicketFailedOne msg store m) m.key = some cp ∧
        cp.fields = prev.fields ∧ cp.ai_error = some msg) := by
  refine ⟨?_, ?_, ?_⟩
  · intro msg st item prev hget herr
    unfold ingestFailOne
    rw [hget]
    simp [herr]
  · intro apiKey oracle st batch msg hlabel item hitem prev hget herr
    unfold processIngestBatch
    dsimp only
    rw [hlabel]
    exact ingestFailFold_preserve msg batch _ item.grievance_key prev hget herr
  · intro msg store m prev hget
    unfold markTicketFailedOne
    rw [hget]
    exact ⟨_, alGet_alSet_self _ _ _, rfl, rfl⟩

def c5item : IngestItem := ⟨"K", "text", "hash"⟩

def c5icp : EnrichmentCheckpoint :=
  ⟨"hash", "Water Supply", "Pipe Leakage", "High", "gemini-3-pro", none⟩

def c5istate : IngestState := ⟨[("K", c5icp)], 0, 0, 0, []⟩

/-- C5 witness for the amended statement, at a concrete checkpoint store. -/
theorem claim_C5_force_preserve_witness :
    (alGet c5istate.cps c5item.grievance_key = some c5icp) ∧
    ingestFailOne true "boom" c5istate c5item = { c5istate with skipped := 1 } ∧
    (∃ cp, alGet (markTicketFailedOne "boom" [("K", c5prev)] ⟨"K", "h2", c5row⟩) "K" =
      some cp ∧ cp.fields = c5prev.fields ∧ cp.ai_error = some "boom") :=
  ⟨rfl,
   claim_C5_force_preserve.1 "boom" c5istate c5item c5icp rfl rfl,
   claim_C5_force_preserve.2.2 "boom" [("K", c5prev)] ⟨"K", "h2", c5row⟩ c5prev rfl⟩

/-! ## C10 -/

def sumIngest (st : IngestState) : Nat := st.processed + st.skipped + st.failed

theorem countValidKeys_cons (r : IngestRow) (rest : List IngestRow) :
    countValidKeys (r :: rest) =
      (if ingestValidKey (ingestKeyOf r) then 1 else 0) + countValidKeys rest := by
  unfold countValidKeys
  rw [List.filter_cons]
  split <;> simp <;> omega

theorem ingestSkipStep_sum (force : Bool) (cps0 : List (String × EnrichmentCheckpoint))
    (acc : Nat × List IngestItem) (r : IngestRow) :
    (ingestSkipStep force cps0 acc r).1 + (ingestSkipStep force cps0 acc r).2.length =
      acc.1 + acc.2.length + (if ingestValidKey (ingestKeyOf r) then 1 else 0) := by
  unfold ingestSkipStep
  dsimp only
  by_cases hv : ingestValidKey (ingestKeyOf r) = true
  · rw [if_neg (by simp [hv]), if_pos hv]
    cases hx : alGet cps0 (ingestKeyOf r) with
    | some ex =>
      dsimp only
      split
      · dsimp only
        omega
      · simp only [List.length_append, List.length_singleton]
        omega
    | none =>
      simp only [List.length_append, List.length_singleton]
      omega
  · rw [if_pos hv, if_neg hv]
    omega

theorem ingestSkipFold_sum (force : Bool) (cps0 : List (String × EnrichmentCheckpoint)) :
    ∀ (rows : List IngestRow) (acc : Nat × List IngestItem),
      (rows.foldl (ingestSkipStep force cps0) acc).1 +
        (rows.foldl (ingestSkipStep force cps0) acc).2.length =
      acc.1 + acc.2.length + countValidKeys rows := by
  intro rows
  induction rows with
  | nil => intro acc; simp [countValidKeys]
  | cons r rest ih =>
    intro acc
    rw [List.foldl_cons, ih (ingestSkipStep force cps0 acc r), countValidKeys_cons]
    have := ingestSkipStep_sum force cps0 acc r
    omega

theorem ingestSkipStep_valid (force : Bool) (cps0 : List (String × EnrichmentCheckpoint))
    (acc : Nat × List IngestItem) (r : IngestRow) (it : IngestItem)
    (h : it ∈ (ingestSkipStep force cps0 acc r).2) :
    it ∈ acc.2 ∨ ingestValidKey it.grievance_key = true := by
  unfold ingestSkipStep at h
  dsimp only at h
  by_cases hv : ingestValidKey (ingestKeyOf r) = true
  · rw [if_neg (by simp [hv])] at h
    cases hx : alGet cps0 (ingestKeyOf r) with
    | some ex =>
      rw [hx] at h
      dsimp only at h
      split at h
      · exact .inl h
      · rcases List.mem_append.mp h with h' | h'
        · exact .inl h'
        · right
          rw [List.mem_singleton] at h'
          subst h'
          exact hv
    | none =>
      rw [hx] at h
      rcases List.mem_append.mp h with h' | h'
      · exact .inl h'
      · right
        rw [List.mem_singleton] at h'
        subst h'
        exact hv
  · rw [if_pos (by simp [hv])] at h
    exact .inl h

theorem ingestSkipFold_valid (force : Bool) (cps0 : List (String × EnrichmentCheckpoint)) :
    ∀ (rows : List IngestRow) (acc : Nat × List IngestItem),
      (∀ it ∈ acc.2, ingestValidKey it.grievance_key = true) →
      ∀ it ∈ (rows.foldl (ingestSkipStep force cps0) acc).2,
        ingestValidKey it.grievance_key = true := by
  intro rows
  induction rows with
  | nil => intro acc hacc it hit; exact hacc it hit
  | cons r rest ih =>
    intro acc hacc it hit
    refine ih (ingestSkipStep force cps0 acc r) ?_ it hit
    intro x hx
    rcases ingestSkipStep_valid force cps0 acc r x hx with h' | h'
    · exact hacc x h'
    · exact h'

theorem ingestFailOne_sum (force : Bool) (msg : String) (st : IngestState)
    (item : IngestItem) :
    sumIngest (ingestFailOne force msg st item) = sumIngest st + 1 := by
  unfold ingestFailOne sumIngest
  dsimp only
  cases alGet st.cps item.grievance_key with
  | some prev =>
    dsimp only
    by_cases hc : (force && prev.ai_error.isNone) = true
    · rw [if_pos hc]
      dsimp only
      omega
    · rw [if_neg hc]
      dsimp only
      omega
  | none => rfl

theorem ingestFailFold_sum (force : Bool) (msg : String) :
    ∀ (batch : List IngestItem) (st : IngestState),
      sumIngest (batch.foldl (ingestFailOne force msg) st) = sumIngest st + batch.length := by
  intro batch
  induction batch with
  | nil => intro st; simp
  | cons item rest ih =>
    intro st
    rw [List.foldl_cons, ih, ingestFailOne_sum]
    simp
    omega

theorem ingestSuccessFold_sum (model : String) :
    ∀ (pairs : List (IngestItem × MergedLabel)) (st : IngestState),
      sumIngest (pairs.foldl (ingestSuccessOne model) st) = sumIngest st + pairs.length := by
  intro pairs
  induction pairs with
  | nil => intro st; simp
  | cons p rest ih =>
    intro st
    rw [List.foldl_cons, ih]
    unfold ingestSuccessOne sumIngest
    dsimp only
    simp only [List.length_cons]
    omega

theorem label_batch_ok_length (apiKey : Bool) (oracle : IngestOracle)
    (batch : List IngestItem) (labs : List MergedLabel) (model : String)
    (h : _label_batch apiKey oracle batch = .ok (labs, model)) :
    labs.length = batch.length := by
  unfold _label_batch at h
  split at h
  · exact absurd h (by simp)
  · cases ho : oracle batch with
    | error e => rw [ho] at h; exact absurd h (by simp)
    | ok p =>
      rw [ho] at h
      dsimp only at h
      split at h
      · exact absurd h (by simp)
      · next hlen =>
        simp only [Except.ok.injEq, Prod.mk.injEq] at h
        obtain ⟨rfl, rfl⟩ := h
        simp only [List.length_map]
        omega

theorem processIngestBatch_sum (apiKey : Bool) (oracle : IngestOracle) (force : Bool)
    (st : IngestState) (batch : List IngestItem) :
    sumIngest (processIngestBatch apiKey oracle force st batch) =
      sumIngest st + batch.length := by
  unfold processIngestBatch
  dsimp only
  cases hl : _label_batch apiKey oracle batch with
  | error e =>
    rw [ingestFailFold_sum]
    rfl
  | ok p =>
    obtain ⟨labs, model⟩ := p
    rw [ingestSuccessFold_sum]
    have hlen := label_batch_ok_length apiKey oracle batch labs model hl
    have : (batch.zip labs).length = batch.length := by
      rw [List.length_zip, hlen]
      omega
    rw [this]
    rfl

theorem chunksFold_sum (apiKey : Bool) (oracle : IngestOracle) (force : Bool) :
    ∀ (chunks : List (List IngestItem)) (st : IngestState),
      sumIngest (chunks.foldl (processIngestBatch apiKey oracle force) st) =
        sumIngest st + (chunks.map List.length).sum := by
  intro chunks
  induction chunks with
  | nil => intro st; simp
  | cons b rest ih =>
    intro st
    rw [List.foldl_cons, ih, processIngestBatch_sum]
    simp
    omega

theorem ingestFailOne_cps_ne (force : Bool) (msg : String) (st : IngestState)
    (item : IngestItem) (k : String) (hne : k ≠ item.grievance_key) :
    alGet (ingestFailOne force msg st item).cps k = alGet st.cps k := by
  unfold ingestFailOne
  dsimp only
  cases alGet st.cps item.grievance_key with
  | some prev =>
    dsimp only
    by_cases hc : (force && prev.ai_error.isNone) = true
    · rw [if_pos hc]
    · rw [if_neg hc]
      dsimp only
      rw [alGet_alSet_ne _ _ _ _ hne]
  | none =>
    dsimp only
    rw [alGet_alSet_ne _ _ _ _ hne]

theorem ingestSuccessOne_cps_ne (model : String) (st : IngestState)
    (p : IngestItem × MergedLabel) (k : String) (hne : k ≠ p.1.grievance_key) :
    alGet (ingestSuccessOne model st p).cps k = alGet st.cps k := by
  unfold ingestSuccessOne
  dsimp only
  rw [alGet_alSet_ne _ _ _ _ hne]

theorem ingestFailFold_cps_ne (force : Bool) (msg : String) :
    ∀ (batch : List IngestItem) (st : IngestState) (k : String),
      (∀ it ∈ batch, k ≠ it.grievance_key) →
      alGet ((batch.foldl (ingestFailOne force msg) st).cps) k = alGet st.cps k := by
  intro batch
  induction batch with
  | nil => intro st k _; rfl
  | cons item rest ih =>
    intro st k hne
    rw [List.foldl_cons, ih _ k (fun x hx => hne x (List.mem_cons_of_mem _ hx)),
        ingestFailOne_cps_ne force msg st item k (hne item (List.mem_cons_self _ _))]

theorem ingestSuccessFold_cps_ne (model : String) :
    ∀ (pairs : List (IngestItem × MergedLabel)) (st : IngestState) (k : String),
      (∀ p ∈ pairs, k ≠ p.1.grievance_key) →
      alGet ((pairs.foldl (ingestSuccessOne model) st).cps) k = alGet st.cps k := by
  intro pairs
  induction pairs with
  | nil => intro st k _; rfl
  | cons p rest ih =>
    intro st k hne
    rw [List.foldl_cons, ih _ k (fun x hx => hne x (List.mem_cons_of_mem _ hx)),
        ingestSuccessOne_cps_ne model st p k (hne p (List.mem_cons_self _ _))]

theorem processIngestBatch_cps_invalid (apiKey : Bool) (oracle : IngestOracle) (force : Bool)
    (st : IngestState) (batch : List IngestItem) (k : String)
    (hk : ingestValidKey k = false)
    (hbatch : ∀ it ∈ batch, ingestValidKey it.grievance_key = true) :
    alGet (processIngestBatch apiKey oracle force st batch).cps k = alGet st.cps k := by
  have hne : ∀ it ∈ batch, k ≠ it.grievance_key := by
    intro it hit heq
    rw [heq, hbatch it hit] at hk
    cases hk
  unfold processIngestBatch
  dsimp only
  cases hl : _label_batch apiKey oracle batch with
  | error e =>
    rw [ingestFailFold_cps_ne force e batch _ k hne]
  | ok p =>
    obtain ⟨labs, model⟩ := p
    dsimp only
    rw [ingestSuccessFold_cps_ne model (batch.zip labs) _ k ?_]
    intro q hq
    cases q with
    | mk a b => exact hne a (List.of_mem_zip hq).1

theorem chunksFold_cps_invalid (apiKey : Bool) (oracle : IngestOracle) (force : Bool)
    (k : String) (hk : ingestValidKey k = false) :
    ∀ (chunks : List (List IngestItem)) (st : IngestState),
      (∀ b ∈ chunks, ∀ it ∈ b, ingestValidKey it.grievance_key = true) →
      alGet ((chunks.foldl (processIngestBatch apiKey oracle force) st).cps) k =
        alGet st.cps k := by
  intro chunks
  induction chunks with
  | nil => intro st _; rfl
  | cons b rest ih =>
    intro st hall
    rw [List.foldl_cons, ih _ (fun x hx it hit => hall x (List.mem_cons_of_mem _ hx) it hit),
        processIngestBatch_cps_invalid apiKey oracle force st b k hk
          (hall b (List.mem_cons_self _ _))]

theorem countValid_lt_length (rows : List IngestRow)
    (h : ∃ r ∈ rows, ingestValidKey (ingestKeyOf r) = false) :
    countValidKeys rows < rows.length := by
  unfold countValidKeys
  induction rows with
  | nil => obtain ⟨x, hx, _⟩ := h; cases hx
  | cons a as ih =>
    obtain ⟨x, hx, hpx⟩ := h
    rcases List.mem_cons.mp hx with rfl | hx'
    · rw [List.filter_cons, hpx]
      have := List.length_filter_le (fun r => ingestValidKey (ingestKeyOf r)) as
      simp
      omega
    · by_cases hpa : ingestValidKey (ingestKeyOf a)
      · rw [List.filter_cons, if_pos (by simp [hpa])]
        have := ih ⟨x, hx', hpx⟩
        simp
        omega
      · rw [List.filter_cons, if_neg (by simp [hpa])]
        have := List.length_filter_le (fun r => ingestValidKey (ingestKeyOf r)) as
        simp
        omega

theorem ticketPageStep_dropped (force rowMode : Bool)
    (ex0 : List (String × TicketCheckpoint)) (acc : Nat × List (Payload × TicketMeta))
    (r : GrievanceProcessedRow) (hk : ticketKeyOf rowMode r = "") :
    ticketPageStep force rowMode ex0 acc r = acc := by
  unfold ticketPageStep
  dsimp only
  rw [if_pos hk]

theorem ticketPageFold_dropped (force rowMode : Bool)
    (ex0 : List (String × TicketCheckpoint)) :
    ∀ (page : List GrievanceProcessedRow) (acc : Nat × List (Payload × TicketMeta)),
      (∀ r ∈ page, ticketKeyOf rowMode r = "") →
      page.foldl (ticketPageStep force rowMode ex0) acc = acc := by
  intro page
  induction page with
  | nil => intro acc _; rfl
  | cons r rest ih =>
    intro acc hkeys
    rw [List.foldl_cons, ticketPageStep_dropped force rowMode ex0 acc r (hkeys r (by simp)),
        ih acc (fun x hx => hkeys x (by simp [hx]))]

theorem ticketPagesLoop_dropped (force rowMode : Bool)
    (ex0 : List (String × TicketCheckpoint)) :
    ∀ (fuel : Nat) (rows : List GrievanceProcessedRow), rows.length < fuel →
      (∀ r ∈ rows, ticketKeyOf rowMode r = "") →
      ∀ (seen skipped : Nat),
        ticketPagesLoop force rowMode ex0 none fuel rows seen skipped [] = (skipped, []) := by
  intro fuel
  induction fuel with
  | zero => intro rows h; omega
  | succ f ih =>
    intro rows hlen hkeys seen skipped
    show (if limitTruthy none && seen ≥ (none : Option Nat).getD 0 then (skipped, [])
          else _) = _
    rw [if_neg (by simp [limitTruthy])]
    cases hr : rows with
    | nil => simp
    | cons r0 rest =>
      have hne : (rows.take 200).isEmpty = false := by
        rw [hr]
        rfl
      rw [← hr]
      dsimp only
      rw [if_neg (by simp [hne])]
      rw [ticketPageFold_dropped force rowMode ex0 (rows.take 200) (skipped, [])
        (fun x hx => hkeys x (List.take_subset 200 rows hx))]
      rw [ih (rows.drop 200)
        (by rw [List.length_drop]; rw [hr] at hlen ⊢; simp at hlen ⊢; omega)
        (fun x hx => hkeys x (List.drop_subset 200 rows hx))]

theorem ticketPageStep_wm_keys (force rowMode : Bool)
    (ex0 : List (String × TicketCheckpoint)) (acc : Nat × List (Payload × TicketMeta))
    (r : GrievanceProcessedRow) (x : Payload × TicketMeta)
    (hx : x ∈ (ticketPageStep force rowMode ex0 acc r).2) :
    x ∈ acc.2 ∨ x.2.key ≠ "" := by
  by_cases hk : ticketKeyOf rowMode r = ""
  · rw [ticketPageStep_dropped force rowMode ex0 acc r hk] at hx
    exact .inl hx
  · unfold ticketPageStep at hx
    dsimp only at hx
    rw [if_neg hk] at hx
    cases hg : alGet ex0 (ticketKeyOf rowMode r) with
    | some prev =>
      rw [hg] at hx
      dsimp only at hx
      split at hx
      · exact .inl hx
      · rcases List.mem_append.mp hx with h' | h'
        · exact .inl h'
        · right
          rw [List.mem_singleton] at h'
          subst h'
          exact hk
    | none =>
      rw [hg] at hx
      rcases List.mem_append.mp hx with h' | h'
      · exact .inl h'
      · right
        rw [List.mem_singleton] at h'
        subst h'
        exact hk

theorem ticketPageFold_wm_keys (force rowMode : Bool)
    (ex0 : List (String × TicketCheckpoint)) :
    ∀ (page : List GrievanceProcessedRow) (acc : Nat × List (Payload × TicketMeta)),
      (∀ x ∈ acc.2, x.2.key ≠ "") →
      ∀ x ∈ (page.foldl (ticketPageStep force rowMode ex0) acc).2, x.2.key ≠ "" := by
  intro page
  induction page with
  | nil => intro acc hacc x hx; exact hacc x hx
  | cons r rest ih =>
    intro acc hacc x hx
    refine ih (ticketPageStep force rowMode ex0 acc r) ?_ x hx
    intro y hy
    rcases ticketPageStep_wm_keys force rowMode ex0 acc r y hy with h' | h'
    · exact hacc y h'
    · exact h'

theorem ticketPagesLoop_wm_keys (force rowMode : Bool)
    (ex0 : List (String × TicketCheckpoint)) (limit : Option Nat) :
    ∀ (fuel : Nat) (rows : List GrievanceProcessedRow) (seen skipped : Nat)
      (wm : List (Payload × TicketMeta)),
      (∀ x ∈ wm, x.2.key ≠ "") →
      ∀ x ∈ (ticketPagesLoop force rowMode ex0 limit fuel rows seen skipped wm).2,
        x.2.key ≠ "" := by
  intro fuel
  induction fuel with
  | zero => intro rows seen skipped wm hwm x hx; exact hwm x hx
  | succ f ih =>
    intro rows seen skipped wm hwm x
    show x ∈ (if limitTruthy limit && seen ≥ limit.getD 0 then (skipped, wm)
              else _).2 → x.2.key ≠ ""
    split
    · intro hx
      exact hwm x hx
    · dsimp only
      split
      · intro hx
        exact hwm x hx
      · intro hx
        exact ih _ _ _ _
          (fun y hy => ticketPageFold_wm_keys force rowMode ex0 (rows.take 200) (skipped, [])
            (by intro z hz; cases hz) y hy) x hx

theorem markTicketFailedOne_get_ne (msg : String) (store : List (String × TicketCheckpoint))
    (m : TicketMeta) (k : String) (hk : k ≠ m.key) :
    alGet (markTicketFailedOne msg store m) k = alGet store k := by
  unfold markTicketFailedOne
  cases hg : alGet store m.key with
  | some prev => exact alGet_alSet_ne _ _ _ _ hk
  | none => exact alGet_alSet_ne _ _ _ _ hk

theorem upsertTicketSuccessOne_get_ne (model : String)
    (store : List (String × TicketCheckpoint)) (p : TicketMeta × TicketClean)
    (k : String) (hk : k ≠ p.1.key) :
    alGet (upsertTicketSuccessOne model store p) k = alGet store k :=
  alGet_alSet_ne _ _ _ _ hk

theorem markTicketFold_get_ne (msg : String) :
    ∀ (metas : List TicketMeta) (store : List (String × TicketCheckpoint)) (k : String),
      (∀ m ∈ metas, k ≠ m.key) →
      alGet (metas.foldl (markTicketFailedOne msg) store) k = alGet store k := by
  intro metas
  induction metas with
  | nil => intro store k _; rfl
  | cons m rest ih =>
    intro store k hne
    rw [List.foldl_cons, ih _ k (fun y hy => hne y (List.mem_cons_of_mem _ hy)),
        markTicketFailedOne_get_ne msg store m k (hne m (List.mem_cons_self _ _))]

theorem upsertTicketFold_get_ne (model : String) :
    ∀ (pairs : List (TicketMeta × TicketClean)) (store : List (String × TicketCheckpoint))
      (k : String),
      (∀ p ∈ pairs, k ≠ p.1.key) →
      alGet (pairs.foldl (upsertTicketSuccessOne model) store) k = alGet store k := by
  intro pairs
  induction pairs with
  | nil => intro store k _; rfl
  | cons p rest ih =>
    intro store k hne
    rw [List.foldl_cons, ih _ k (fun y hy => hne y (List.mem_cons_of_mem _ hy)),
        upsertTicketSuccessOne_get_ne model store p k (hne p (List.mem_cons_self _ _))]

theorem processTicketBatch_get_ne (apiKey : Bool) (oracle : TicketOracle)
    (st : TicketRunState) (chunk : List (Payload × TicketMeta)) (k : String)
    (h : ∀ p ∈ chunk, k ≠ p.2.key) :
    alGet (processTicketBatch apiKey oracle st chunk).existing k = alGet st.existing k := by
  unfold processTicketBatch
  dsimp only
  cases hb : _ticket_enrich_batch apiKey oracle (chunk.map (fun p => p.1)) with
  | error msg =>
    dsimp only
    rw [markTicketFold_get_ne msg (chunk.map (fun p => p.2)) st.existing k ?_]
    intro m hm
    rw [List.mem_map] at hm
    obtain ⟨p, hp, rfl⟩ := hm
    exact h p hp
  | ok pr =>
    obtain ⟨out, model⟩ := pr
    dsimp only
    rw [upsertTicketFold_get_ne model ((chunk.map (fun p => p.2)).zip out) st.existing k ?_]
    intro q hq
    cases q with
    | mk a b =>
      have ha := (List.of_mem_zip hq).1
      rw [List.mem_map] at ha
      obtain ⟨p, hp, rfl⟩ := ha
      exact h p hp

theorem ticketChunksFold_get_ne (apiKey : Bool) (oracle : TicketOracle) (k : String) :
    ∀ (chunks : List (List (Payload × TicketMeta))) (st : TicketRunState),
      (∀ b ∈ chunks, ∀ p ∈ b, k ≠ p.2.key) →
      alGet ((chunks.foldl (processTicketBatch apiKey oracle) st).existing) k =
        alGet st.existing k := by
  intro chunks
  induction chunks with
  | nil => intro st _; rfl
  | cons b rest ih =>
    intro st hall
    rw [List.foldl_cons, ih _ (fun x hx p hp => hall x (List.mem_cons_of_mem _ hx) p hp),
        processTicketBatch_get_ne apiKey oracle st b k (hall b (List.mem_cons_self _ _))]

theorem claim_C10_ingest_core (apiKey : Bool) (oracle : IngestOracle)
    (df : IngestDataset) (force : Bool) (cps0 : List (String × EnrichmentCheckpoint))
    (o : IngestOutcome) (h : _ingest_and_enrich apiKey oracle df force cps0 = .ok o) :
    o.processed + o.skipped + o.failed = countValidKeys df.rows ∧
    o.total_rows = df.rows.length ∧
    (∀ k, ingestValidKey k = false → alGet o.cps k = alGet cps0 k) ∧
    ((∃ r ∈ df.rows, ingestValidKey (ingestKeyOf r) = false) →
      o.processed + o.skipped + o.failed < o.total_rows) := by
  unfold _ingest_and_enrich at h
  split at h
  · exact absurd h (by simp)
  · dsimp only at h
    rw [Except.ok.injEq] at h
    subst h
    have hsplit : (ingestSkipSplit force cps0 df.rows).1 +
        (ingestSkipSplit force cps0 df.rows).2.length = countValidKeys df.rows := by
      have h0 := ingestSkipFold_sum force cps0 df.rows (0, [])
      unfold ingestSkipSplit
      simpa using h0
    have hvalid := ingestSkipFold_valid force cps0 df.rows (0, []) (by intro it hit; cases hit)
    have hflat := chunksOf_flatten 10 (by omega) (ingestSkipSplit force cps0 df.rows).2
    have hlen : ((chunksOf 10 (ingestSkipSplit force cps0 df.rows).2).map List.length).sum =
        (ingestSkipSplit force cps0 df.rows).2.length := by
      rw [← List.length_flatten, hflat]
    have hs := chunksFold_sum apiKey oracle force
      (chunksOf 10 (ingestSkipSplit force cps0 df.rows).2)
      ⟨cps0, 0, (ingestSkipSplit force cps0 df.rows).1, 0, []⟩
    unfold sumIngest at hs
    dsimp only at hs
    rw [hlen] at hs
    refine ⟨?_, rfl, ?_, ?_⟩
    · dsimp only
      omega
    · intro k hk
      dsimp only
      rw [chunksFold_cps_invalid apiKey oracle force k hk _ _ ?_]
      intro b hb it hit
      refine hvalid it ?_
      show it ∈ (ingestSkipSplit force cps0 df.rows).2
      rw [← hflat]
      exact List.mem_flatten.mpr ⟨b, hb, hit⟩
    · intro hex
      have hlt := countValid_lt_length df.rows hex
      dsimp only
      omega

/-- C10: on every run, a candidate row whose resolved business key is empty
(or, in the legacy ingest path, the literal pandas string nan) is silently
excluded from enrichment. Legacy path: the checkpoint store is untouched at
every invalid key and no counter counts such a row, so
processed + skipped + failed equals the number of valid-key rows and is
strictly less than totalRows whenever an invalid-key row exists. Ticket
path: an empty-key row is dropped by the page loop without touching the
accumulator (no skip count, never in the work list, hence never dispatched,
processed or failed), no run ever writes a checkpoint under the empty key,
and a run whose candidate rows all resolve to empty keys ends completed
with processed = skipped = failed = 0 while totalRows counts the rows. -/
theorem claim_C10_invalid_keys_silently_excluded :
    (∀ (apiKey : Bool) (oracle : IngestOracle) (df : IngestDataset) (force : Bool)
        (cps0 : List (String × EnrichmentCheckpoint)) (o : IngestOutcome),
      _ingest_and_enrich apiKey oracle df force cps0 = .ok o →
      o.processed + o.skipped + o.failed = countValidKeys df.rows ∧
      o.total_rows = df.rows.length ∧
      (∀ k, ingestValidKey k = false → alGet o.cps k = alGet cps0 k) ∧
      ((∃ r ∈ df.rows, ingestValidKey (ingestKeyOf r) = false) →
        o.processed + o.skipped + o.failed < o.total_rows)) ∧
    (∀ (force rowMode : Bool) (ex0 : List (String × TicketCheckpoint))
        (acc : Nat × List (Payload × TicketMeta)) (r : GrievanceProcessedRow),
      ticketKeyOf rowMode r = "" → ticketPageStep force rowMode ex0 acc r = acc) ∧
    (∀ (apiKey : Bool) (oracle : TicketOracle) (source : String)
        (rows : List GrievanceProcessedRow) (limit : Option Nat) (force : Bool)
        (ex0 : List (String × TicketCheckpoint)),
      alGet (_run_ticket_enrich apiKey oracle source rows limit force ex0).checkpoints "" =
        alGet ex0 "") ∧
    (∀ (apiKey : Bool) (oracle : TicketOracle) (source : String)
        (rows : List GrievanceProcessedRow) (force : Bool)
        (ex0 : List (String × TicketCheckpoint)),
      (∀ r ∈ rows, ticketKeyOf (rowModeOf source) r = "") →
      _run_ticket_enrich apiKey oracle source rows none force ex0 =
        ⟨"completed", none, rows.length, 0, 0, 0, ex0, []⟩) := by
  refine ⟨?_, ?_, ?_, ?_⟩
  · intro apiKey oracle df force cps0 o h
    exact claim_C10_ingest_core apiKey oracle df force cps0 o h
  · exact ticketPageStep_dropped
  · intro apiKey oracle source rows limit force ex0
    unfold _run_ticket_enrich
    dsimp only
    have hwm : ∀ x ∈ (ticketPagesLoop force (rowModeOf source) ex0 limit
        (rows.length + 1) rows 0 0 []).2, x.2.key ≠ "" :=
      ticketPagesLoop_wm_keys force (rowModeOf source) ex0 limit (rows.length + 1) rows 0 0 []
        (by intro x hx; cases hx)
    rw [ticketChunksFold_get_ne apiKey oracle "" _ _ ?_]
    · intro b hb p hp
      refine (hwm p ?_).symm
      rw [← chunksOf_flatten 10 (by omega) (ticketPagesLoop force (rowModeOf source) ex0 limit
        (rows.length + 1) rows 0 0 []).2]
      exact List.mem_flatten.mpr ⟨b, hb, hp⟩
  · intro apiKey oracle source rows force ex0 hkeys
    unfold _run_ticket_enrich
    have hloop : ticketPagesLoop force (rowModeOf source) ex0 none
        (rows.length + 1) rows 0 0 [] = (0, []) :=
      ticketPagesLoop_dropped force (rowModeOf source) ex0 (rows.length + 1) rows
        (Nat.lt_succ_self _) hkeys 0 0
    dsimp only
    rw [hloop]
    rfl

def c10df : IngestDataset := ⟨true, [⟨"nan", "s", "d"⟩]⟩

def c10trow : GrievanceProcessedRow :=
  { raw_id := none, grievance_code := none, grievance_id := "",
    department_name := none, status := none, subject := none, description := none,
    closing_remark := none, feedback_rating := none, resolution_days := none,
    forward_count := none }

/-- C10 witness: a legacy dataset whose single row resolves to the key nan
yields a run where the counters account for zero rows while totalRows is one,
and a ticket run over a single empty-key row ends completed with all counters
zero, the store unchanged and nothing dispatched. -/
theorem claim_C10_invalid_keys_silently_excluded_witness :
    _ingest_and_enrich true (fun _ => .error "unused") c10df false [] =
      .ok ⟨1, 0, 0, 0, [], []⟩ ∧
    ((⟨1, 0, 0, 0, [], []⟩ : IngestOutcome).processed +
      (⟨1, 0, 0, 0, [], []⟩ : IngestOutcome).skipped +
      (⟨1, 0, 0, 0, [], []⟩ : IngestOutcome).failed <
      (⟨1, 0, 0, 0, [], []⟩ : IngestOutcome).total_rows) ∧
    _run_ticket_enrich true (fun _ => .error "unused") "close_dump" [c10trow] none false [] =
      ⟨"completed", none, 1, 0, 0, 0, [], []⟩ :=
  ⟨rfl,
   (claim_C10_invalid_keys_silently_excluded.1 true (fun _ => .error "unused") c10df false []
     ⟨1, 0, 0, 0, [], []⟩ rfl).2.2.2
     ⟨⟨"nan", "s", "d"⟩, by decide, by decide⟩,
   claim_C10_invalid_keys_silently_excluded.2.2.2 true (fun _ => .error "unused")
     "close_dump" [c10trow] false []
     (by
       intro r hr
       rw [List.mem_singleton] at hr
       subst hr
       rfl)⟩

/-! ## C3 -/

def c3row (i : Nat) : GrievanceProcessedRow :=
  { raw_id := none, grievance_code := none, grievance_id := "G" ++ toString i,
    department_name := none, status := none, subject := none, description := none,
    closing_remark := none, feedback_rating := none, resolution_days := none,
    forward_count := none }

/-- 201 candidate rows: two query pages (200 + 1) at the fixed page size. -/
def c3rows : List GrievanceProcessedRow := (List.range 201).map c3row

def c3out : TicketModelOut :=
  ⟨none, none, none, none, none, none, none, none, none, none, none⟩

/-- A classification oracle that always succeeds with one aligned record per
input. -/
def c3oracle : TicketOracle := fun batch => .ok (batch.map (fun _ => c3out), "gemini-3-pro")

def c3res : TicketRunResult :=
  _run_ticket_enrich true c3oracle "close_dump" c3rows none false []

set_option maxRecDepth 100000 in
/-- C3: evaluating the ticket-mode run on a 201-row dataset (two pages) with
no prior checkpoints and an always-succeeding classifier. The claim predicts
every non-skipped candidate is batched, so processed + failed = 201; the code
only batches the work list of the final page (the batch loop sits after, not
inside, the paging while-loop), so exactly one batch of one record is
dispatched and processed = 1 while the 200 records of the first page are
silently dropped from enrichment. -/
theorem claim_C3_only_last_page_batched :
    c3res.total_rows = 201 ∧ c3res.skipped = 0 ∧ c3res.processed = 1 ∧
    c3res.failed = 0 ∧ c3res.dispatched.length = 1 ∧
    c3res.processed + c3res.failed ≠ c3res.total_rows - c3res.skipped := by
  refine ⟨rfl, rfl, rfl, rfl, rfl, by decide⟩

end Gir2

